import Mathlib

/-!
Shallow embedding of the response-normalization and template-provisioning
subsystem of the viptela API client (src/viptela/utils.py, constants.py,
viptela.py).  Python JSON-like values are modelled by `JVal`; fallible
Python code is modelled in the `Except PyExc` monad, where `PyExc` mirrors
the Python exceptions the code can raise.
-/

/-- A Python/JSON value as it appears in decoded response bodies and
template definition files. -/
inductive JVal where
  | null
  | bool (b : Bool)
  | int (n : Int)
  | str (s : String)
  | list (items : List JVal)
  | obj (entries : List (String × JVal))

mutual

/-- Boolean equality on `JVal` (structural). -/
def JVal.beq : JVal → JVal → Bool
  | .null, .null => true
  | .bool a, .bool b => a == b
  | .int a, .int b => a == b
  | .str a, .str b => a == b
  | .list a, .list b => JVal.beqList a b
  | .obj a, .obj b => JVal.beqEntries a b
  | _, _ => false

/-- Boolean equality on lists of `JVal`. -/
def JVal.beqList : List JVal → List JVal → Bool
  | [], [] => true
  | a :: as, b :: bs => JVal.beq a b && JVal.beqList as bs
  | _, _ => false

/-- Boolean equality on association lists of `JVal`. -/
def JVal.beqEntries : List (String × JVal) → List (String × JVal) → Bool
  | [], [] => true
  | (k, v) :: as, (k2, v2) :: bs => k == k2 && JVal.beq v v2 && JVal.beqEntries as bs
  | _, _ => false

end

mutual

theorem JVal.beq_correct : ∀ (a b : JVal), (JVal.beq a b = true) ↔ a = b
  | .null, b => by cases b <;> simp [JVal.beq]
  | .bool x, b => by cases b <;> simp [JVal.beq]
  | .int x, b => by cases b <;> simp [JVal.beq]
  | .str x, b => by cases b <;> simp [JVal.beq]
  | .list xs, b => by
      cases b <;> simp [JVal.beq]
      exact JVal.beqList_correct xs _
  | .obj xs, b => by
      cases b <;> simp [JVal.beq]
      exact JVal.beqEntries_correct xs _

theorem JVal.beqList_correct : ∀ (as bs : List JVal), (JVal.beqList as bs = true) ↔ as = bs
  | [], bs => by cases bs <;> simp [JVal.beqList]
  | a :: as, bs => by
      cases bs with
      | nil => simp [JVal.beqList]
      | cons b bs =>
          simp [JVal.beqList, JVal.beq_correct a b, JVal.beqList_correct as bs]

theorem JVal.beqEntries_correct :
    ∀ (as bs : List (String × JVal)), (JVal.beqEntries as bs = true) ↔ as = bs
  | [], bs => by cases bs <;> simp [JVal.beqEntries]
  | (k, v) :: as, bs => by
      cases bs with
      | nil => simp [JVal.beqEntries]
      | cons b bs =>
          simp [JVal.beqEntries, JVal.beq_correct v b.2, JVal.beqEntries_correct as bs,
            and_assoc, Prod.ext_iff]

end

instance : DecidableEq JVal := fun a b => decidable_of_iff _ (JVal.beq_correct a b)

instance : BEq JVal := ⟨JVal.beq⟩

theorem JVal.beq_iff (a b : JVal) : (a == b) = true ↔ a = b := JVal.beq_correct a b

instance : LawfulBEq JVal where
  eq_of_beq h := (JVal.beq_correct _ _).mp h
  rfl := (JVal.beq_correct _ _).mpr rfl

/-- Python exceptions that the embedded code can raise. -/
inductive PyExc where
  | jsonDecodeError (msg : String)
  | keyError (key : JVal)
  | typeError
  | attributeError
  | indexError
  | exception (msg : String)
deriving DecidableEq

/-- Python truthiness of a JSON-like value (`bool(x)`). -/
def truthy : JVal → Bool
  | .null => false
  | .bool b => b
  | .int n => n != 0
  | .str s => !s.isEmpty
  | .list items => !items.isEmpty
  | .obj entries => !entries.isEmpty


/-! ## Python container primitives

Faithful models of the Python operations the source uses on decoded JSON
data: subscripting (`d[k]`), `dict.get`, membership (`k in d`), iteration
(`for x in d`), and dict assignment (`d[k] = v`).  Dicts are association
lists with unique keys in practice; lookup takes the first match and
assignment replaces the first match (appending when the key is new), which
coincides with Python dict semantics on duplicate-free key lists. -/

/-- `d[k]` for an arbitrary Python subscript `k` (Python `__getitem__`):
dict lookup raising `KeyError` when absent, list indexing by integer
raising `IndexError` out of bounds (negative indices, unused by the
sources, also raise here), `TypeError` on non-subscriptable values. -/
def pyGetItemV (j : JVal) (k : JVal) : Except PyExc JVal :=
  match j with
  | .obj entries =>
      match k with
      | .str s =>
          match entries.find? (fun kv => kv.1 = s) with
          | some kv => .ok kv.2
          | none => .error (.keyError k)
      | .list _ => .error .typeError
      | .obj _ => .error .typeError
      | _ => .error (.keyError k)
  | .list items =>
      match k with
      | .int n =>
          if h : 0 ≤ n ∧ n.toNat < items.length then .ok (items.get ⟨n.toNat, h.2⟩)
          else .error .indexError
      | _ => .error .typeError
  | _ => .error .typeError

/-- `d[k]` for a string-literal key, as in `feature[constants.TEMPLATE_ID]`. -/
def pyGetItemS (j : JVal) (k : String) : Except PyExc JVal :=
  pyGetItemV j (.str k)

/-- `d.get(k)` / `d.get(k, default)`: returns `none` when the key is
absent; raises `AttributeError` when the receiver is not a dict. -/
def pyDictGet (j : JVal) (k : String) : Except PyExc (Option JVal) :=
  match j with
  | .obj entries => .ok ((entries.find? (fun kv => kv.1 = k)).map (fun kv => kv.2))
  | _ => .error .attributeError

/-- `k in d`: dict key membership, list element membership, substring test
on strings; `TypeError` otherwise. -/
def pyMem (k : JVal) (j : JVal) : Except PyExc Bool :=
  match j with
  | .obj entries =>
      match k with
      | .str s => .ok (entries.any (fun kv => kv.1 = s))
      | .list _ => .error .typeError
      | .obj _ => .error .typeError
      | _ => .ok false
  | .list items => .ok (items.any (fun v => k == v))
  | .str s =>
      match k with
      | .str t => .ok (if t.isEmpty then true else (s.splitOn t).length > 1)
      | _ => .error .typeError
  | _ => .error .typeError

/-- `for x in d`: iterating a dict yields its keys, a list its elements,
a string its characters; `TypeError` otherwise. -/
def pyIterE (j : JVal) : Except PyExc (List JVal) :=
  match j with
  | .obj entries => .ok (entries.map (fun kv => JVal.str kv.1))
  | .list items => .ok items
  | .str s => .ok (s.toList.map (fun c => JVal.str (String.mk [c])))
  | _ => .error .typeError

/-- `d[k] = v` on a dict value: replace the first binding of `k`, append
when absent.  Only reached on values already known to be dicts; on other
values it is the identity. -/
def pySet (j : JVal) (k : String) (v : JVal) : JVal :=
  match j with
  | .obj entries => .obj (go entries)
  | other => other
where
  go : List (String × JVal) → List (String × JVal)
    | [] => [(k, v)]
    | kv :: rest => if kv.1 = k then (k, v) :: rest else kv :: go rest

/-- `{k: v for k, v in d.items() if k in allow}`: dict projection down to
an allow-list of keys, preserving order; `AttributeError` when the
receiver is not a dict (no `.items()`). -/
def pyProject (j : JVal) (allow : List String) : Except PyExc JVal :=
  match j with
  | .obj entries => .ok (.obj (entries.filter (fun kv => allow.contains kv.1)))
  | _ => .error .attributeError

/-- `str(x)` as used by `'{0}_features'.format(name)` and the log message.
Faithful for the primitive values that occur as template names; container
values are rendered by a placeholder (they never occur as names in the
sources, which read names out of JSON files). -/
def pyStr : JVal → String
  | .null => "None"
  | .bool true => "True"
  | .bool false => "False"
  | .int n => toString n
  | .str s => s
  | .list _ => "[...]"
  | .obj _ => "\x7b...\x7d"

/-! ## Constants (src/viptela/constants.py) -/

def DATA : String := "data"
def CONFIG : String := "config"
def ERROR : String := "error"
def DEVICE_TYPE : String := "deviceType"
def FACTORY_DEFAULT : String := "factoryDefault"
def GENERAL_TEMPLATES : String := "generalTemplates"
def POLICY_DEFINITION : String := "policyDefinition"
def POLICY_DESCRIPTION : String := "policyDescription"
def POLICY_NAME : String := "policyName"
def POLICY_ID : String := "policyId"
def SUB_TEMPLATES : String := "subTemplates"
def TEMPLATE_DEFINITION : String := "templateDefinition"
def TEMPLATE_DESCRIPTION : String := "templateDescription"
def TEMPLATE_ID : String := "templateId"
def TEMPLATE_MIN_VERSION : String := "templateMinVersion"
def TEMPLATE_NAME : String := "templateName"
def TEMPLATE_TYPE : String := "templateType"
def UID_RANGE : String := "featureTemplateUidRange"

def FEATURE_KEYS : List String :=
  [TEMPLATE_NAME, TEMPLATE_DESCRIPTION, TEMPLATE_TYPE, TEMPLATE_MIN_VERSION,
   DEVICE_TYPE, FACTORY_DEFAULT, TEMPLATE_DEFINITION]

def POLICY_KEYS : List String :=
  [POLICY_NAME, POLICY_DESCRIPTION, POLICY_DEFINITION]

def DEVICE_TEMPLATE_KEYS : List String :=
  [TEMPLATE_NAME, TEMPLATE_DESCRIPTION, DEVICE_TYPE, "configType",
   FACTORY_DEFAULT, POLICY_ID, UID_RANGE, GENERAL_TEMPLATES]

def HTTP_SUCCESS_CODES : List (Nat × String) := [(200, "Success")]

def HTTP_ERROR_CODES : List (Nat × String) :=
  [(400, "Bad Request"), (403, "Forbidden"), (404, "API Not found"),
   (406, "Not Acceptable Response"), (415, "Unsupported Media Type"),
   (500, "Internal Server Error")]

def HTTP_RESPONSE_CODES : List (Nat × String) := HTTP_SUCCESS_CODES ++ HTTP_ERROR_CODES

/-- `code in d` for the status-code dicts. -/
def codeMem (d : List (Nat × String)) (code : Nat) : Bool :=
  d.any (fun kv => kv.1 = code)

/-- `d[code]` for the status-code dicts: the fixed reason phrase, raising
`KeyError` for an unknown code. -/
def codePhrase (code : Nat) : Except PyExc String :=
  match HTTP_RESPONSE_CODES.find? (fun kv => kv.1 = code) with
  | some kv => .ok kv.2
  | none => .error (.keyError (.int code))

def DEVICE_PATH : String := "/template/device/"
def DEVICE_FEATURE_PATH : String := "/template/device/feature/"
def FEATURE_PATH : String := "/template/feature/"
def VEDGE_POLICY_PATH : String := "/template/policy/vedge"

/-! ## The Result value and the response normalizer (src/viptela/utils.py) -/

/-- A raw transport response as the normalizer sees it: HTTP method of the
originating request, status code, and the body.  `body = some v` means the
body is valid JSON decoding to `v`; `body = none` means the body is not
valid JSON, so `response.json()` / `json.loads(response.text)` raise
`JSONDecodeError`. -/
structure RawResponse where
  method : String
  status_code : Nat
  body : Option JVal
deriving DecidableEq

/-- `response.ok` of the requests library: status code below 400. -/
def respOk (r : RawResponse) : Bool := r.status_code < 400

/-- The `error` field of a `Result`: the success paths store strings, the
error path stores either the decoded `error.message` value or the caught
`JSONDecodeError` exception object itself. -/
inductive ErrField where
  | val (v : JVal)
  | exc (e : PyExc)
deriving DecidableEq

/-- Python truthiness of the `error` field (`if not response.error`):
exception objects are always truthy. -/
def errTruthy : ErrField → Bool
  | .val v => truthy v
  | .exc _ => true

/-- The `Result` namedtuple: uniform outcome of any HTTP call. -/
structure Result where
  ok : Bool
  status_code : Nat
  error : ErrField
  reason : JVal
  data : JVal
  response : RawResponse
deriving DecidableEq

/-- The message `requests`/`json` produce when a body fails to decode. -/
def decodeFailMsg : String := "Expecting value: line 1 column 1 (char 0)"

/-- `response.json()`: the decoded body, raising `JSONDecodeError` when the
body is not valid JSON. -/
def respJson (r : RawResponse) : Except PyExc JVal :=
  match r.body with
  | some v => .ok v
  | none => .error (.jsonDecodeError decodeFailMsg)

/-- Truthiness of an optional lookup result (`if d.get(k):` where a missing
key gives `None`, which is falsy). -/
def truthyOpt (o : Option JVal) : Bool :=
  match o with
  | some v => truthy v
  | none => false

@[simp] theorem truthyOpt_some (v : JVal) : truthyOpt (some v) = truthy v := rfl

@[simp] theorem truthyOpt_none : truthyOpt none = false := rfl

/-- `parse_http_success` (utils.py lines 29-64): normalize an HTTP 2XX
response.  GET responses probe the decoded body for `data`, `config`, then
`templateDefinition`; other methods parse the whole body, degrading to an
empty dict on decode failure. -/
def parse_http_success (response : RawResponse) : Except PyExc Result := do
  if response.method = "GET" then
    let reason0 ← codePhrase response.status_code
    let j ← respJson response
    let dataProbe ← pyDictGet j DATA
    if truthyOpt dataProbe then
      let v ← pyGetItemS j DATA
      pure ⟨respOk response, response.status_code, .val (.str ""), .str reason0, v, response⟩
    else
      let configProbe ← pyDictGet j CONFIG
      if truthyOpt configProbe then
        let v ← pyGetItemS j CONFIG
        pure ⟨respOk response, response.status_code, .val (.str ""), .str reason0, v, response⟩
      else
        let tdProbe ← pyDictGet j TEMPLATE_DEFINITION
        if truthyOpt tdProbe then
          let v ← pyGetItemS j TEMPLATE_DEFINITION
          pure ⟨respOk response, response.status_code, .val (.str ""), .str reason0, v, response⟩
        else
          let reason1 ← codePhrase response.status_code
          pure ⟨respOk response, response.status_code,
            .val (.str "No data received from device"), .str reason1, .obj [], response⟩
  else
    let json_response :=
      match response.body with
      | some v => v
      | none => JVal.obj []
    let reason ← codePhrase response.status_code
    pure ⟨respOk response, response.status_code, .val (.str ""), .str reason,
      json_response, response⟩

/-- `parse_http_error` (utils.py lines 67-91): normalize an HTTP 4XX/5XX
response.  A JSON body yields `error.details` as reason and
`error.message` as error (`KeyError`/`TypeError` on other shapes
propagate, only `JSONDecodeError` is caught); a non-JSON body falls back
to the fixed status phrase with the exception object in `error`. -/
def parse_http_error (response : RawResponse) : Except PyExc Result :=
  match response.body with
  | some decoded => do
      let errObj ← pyGetItemS decoded ERROR
      let reason ← pyGetItemS errObj "details"
      let errMsg ← pyGetItemS errObj "message"
      pure ⟨respOk response, response.status_code, .val errMsg, reason, .obj [], response⟩
  | none => do
      let phrase ← codePhrase response.status_code
      pure ⟨respOk response, response.status_code,
        .exc (.jsonDecodeError decodeFailMsg), .str phrase, .obj [], response⟩

/-- `parse_response` (utils.py lines 94-104): dispatch on the status code;
unclassified codes fall off the end and return `None`. -/
def parse_response (response : RawResponse) : Except PyExc (Option Result) :=
  if codeMem HTTP_SUCCESS_CODES response.status_code then
    (parse_http_success response).map some
  else if codeMem HTTP_ERROR_CODES response.status_code then
    (parse_http_error response).map some
  else
    .ok none

/-- `check_post_response` (utils.py lines 156-164): return the result
unchanged when its `error` field is falsy; otherwise log a diagnostic and
raise a generic `Exception` when `raise_error` is set.  The second
component collects the messages logged. -/
def check_post_response (response : Result) (raise_error : Bool := false) :
    Except PyExc (Result × List String) :=
  if errTruthy response.error = false then
    .ok (response, [])
  else
    let logs := ["Failure in POST operation: " ++ pyStr response.reason ++ "."]
    if raise_error then
      .error (.exception "Failure in POST operation.")
    else
      .ok (response, logs)

/-! ## Claims about the response normalizer -/

@[simp] theorem exceptBind_ok {ε α β : Type} (a : α) (f : α → Except ε β) :
    (Except.ok a : Except ε α) >>= f = f a := rfl

@[simp] theorem exceptBind_error {ε α β : Type} (e : ε) (f : α → Except ε β) :
    (Except.error e : Except ε α) >>= f = .error e := rfl

/-- First lookup of a key in a decoded JSON object, as the success-path
probes see it. -/
def objGet (kvs : List (String × JVal)) (k : String) : Option JVal :=
  (kvs.find? (fun kv => kv.1 = k)).map (fun kv => kv.2)

theorem pyDictGet_obj (kvs : List (String × JVal)) (k : String) :
    pyDictGet (.obj kvs) k = .ok (objGet kvs k) := rfl

theorem pyGetItemS_of_objGet (kvs : List (String × JVal)) (s : String) (X : JVal)
    (h : objGet kvs s = some X) : pyGetItemS (.obj kvs) s = .ok X := by
  unfold objGet at h
  unfold pyGetItemS pyGetItemV
  cases hf : kvs.find? (fun kv => kv.1 = s) with
  | none => rw [hf] at h; cases h
  | some kv =>
      rw [hf] at h
      simp at h
      simp [hf, h]

/-- The `data` payload the GET success-path probe produces from a decoded
object body (characterization used by the claim proofs). -/
def probeData (kvs : List (String × JVal)) : JVal :=
  if truthyOpt (objGet kvs DATA) then (objGet kvs DATA).getD .null
  else if truthyOpt (objGet kvs CONFIG) then (objGet kvs CONFIG).getD .null
  else if truthyOpt (objGet kvs TEMPLATE_DEFINITION) then
    (objGet kvs TEMPLATE_DEFINITION).getD .null
  else .obj []

/-- The `error` field the GET success-path probe produces. -/
def probeErr (kvs : List (String × JVal)) : ErrField :=
  if truthyOpt (objGet kvs DATA) || truthyOpt (objGet kvs CONFIG) ||
      truthyOpt (objGet kvs TEMPLATE_DEFINITION) then .val (.str "")
  else .val (.str "No data received from device")

theorem parse_get_200_eq (kvs : List (String × JVal)) :
    parse_http_success ⟨"GET", 200, some (.obj kvs)⟩ =
      .ok ⟨true, 200, probeErr kvs, .str "Success", probeData kvs,
        ⟨"GET", 200, some (.obj kvs)⟩⟩ := by
  have hphrase : codePhrase 200 = .ok "Success" := rfl
  have hjson : respJson ⟨"GET", 200, some (.obj kvs)⟩ = .ok (.obj kvs) := rfl
  unfold parse_http_success
  simp only [hphrase, hjson, pyDictGet_obj, exceptBind_ok, respOk, if_true,
    show (("GET" : String) = "GET") = True by simp]
  cases hd : truthyOpt (objGet kvs DATA) with
  | true =>
      obtain ⟨X, hX⟩ : ∃ X, objGet kvs DATA = some X := by
        cases h : objGet kvs DATA with
        | none => rw [h, truthyOpt] at hd; cases hd
        | some v => exact ⟨v, rfl⟩
      have hdX : truthy X = true := by rw [hX, truthyOpt] at hd; exact hd
      rw [pyGetItemS_of_objGet kvs DATA X hX]
      simp [probeData, probeErr, hd, hX, hdX]
  | false =>
      simp only [hd, Bool.false_eq_true, if_false, exceptBind_ok]
      cases hc : truthyOpt (objGet kvs CONFIG) with
      | true =>
          obtain ⟨Y, hY⟩ : ∃ Y, objGet kvs CONFIG = some Y := by
            cases h : objGet kvs CONFIG with
            | none => rw [h, truthyOpt] at hc; cases hc
            | some v => exact ⟨v, rfl⟩
          have hcY : truthy Y = true := by rw [hY, truthyOpt] at hc; exact hc
          rw [pyGetItemS_of_objGet kvs CONFIG Y hY]
          simp [probeData, probeErr, hd, hc, hY, hcY]
      | false =>
          simp only [hc, Bool.false_eq_true, if_false, exceptBind_ok]
          cases ht : truthyOpt (objGet kvs TEMPLATE_DEFINITION) with
          | true =>
              obtain ⟨Z, hZ⟩ : ∃ Z, objGet kvs TEMPLATE_DEFINITION = some Z := by
                cases h : objGet kvs TEMPLATE_DEFINITION with
                | none => rw [h, truthyOpt] at ht; cases ht
                | some v => exact ⟨v, rfl⟩
              have htZ : truthy Z = true := by rw [hZ, truthyOpt] at ht; exact ht
              rw [pyGetItemS_of_objGet kvs TEMPLATE_DEFINITION Z hZ]
              simp [probeData, probeErr, hd, hc, ht, hZ, htZ]
          | false =>
              simp [probeData, probeErr, hphrase, hd, hc, ht, pure, Except.pure]

/-- C4 counterexample: the claim says the normalizer never raises for a
malformed (non-JSON) body, in particular for a GET with status 200; but on
that very input `parse_http_success` calls `response.json()` outside any
handler and the decode error propagates. -/
theorem c4_counterexample :
    parse_response ⟨"GET", 200, none⟩ = .error (.jsonDecodeError decodeFailMsg) := rfl

/-- C4 (amended): for classified status codes the normalizer reports
malformed (non-JSON) bodies inside the returned Result instead of raising,
with the exception of the success-path GET case: a non-GET success
response degrades a non-JSON body to empty data, and an error-set response
stores the decode failure in the error field; a GET success response with
a non-JSON body, by contrast, raises (see `c4_counterexample`). -/
theorem c4_normalizer_no_raise_amended :
    (∀ (m : String) (status : Nat) (body : Option JVal),
      m ≠ "GET" → codeMem HTTP_SUCCESS_CODES status = true →
      ∃ r : Result, parse_response ⟨m, status, body⟩ = .ok (some r) ∧
        (body = none → r.data = .obj []))
  ∧ (∀ (m : String) (status : Nat),
      codeMem HTTP_ERROR_CODES status = true →
      ∃ r : Result, parse_response ⟨m, status, none⟩ = .ok (some r) ∧
        r.data = .obj [] ∧ errTruthy r.error = true) := by
  constructor
  · intro m status body hm hs
    have h200 : status = 200 := by
      have := by simpa [codeMem, HTTP_SUCCESS_CODES] using hs
      omega
    subst h200
    refine ⟨⟨true, 200, .val (.str ""), .str "Success",
      (match body with | some v => v | none => JVal.obj []), ⟨m, 200, body⟩⟩, ?_, ?_⟩
    · unfold parse_response parse_http_success
      rw [if_neg hm]
      simp [codeMem, HTTP_SUCCESS_CODES, codePhrase, HTTP_RESPONSE_CODES,
        HTTP_ERROR_CODES, respOk, Except.map]
    · intro hb; subst hb; rfl
  · intro m status hs
    have hcases : 400 = status ∨ 403 = status ∨ 404 = status ∨ 406 = status ∨
        415 = status ∨ 500 = status := by
      simpa [codeMem, HTTP_ERROR_CODES, or_assoc] using hs
    rcases hcases with h | h | h | h | h | h <;> subst h <;>
      exact ⟨_, rfl, rfl, rfl⟩

/-- C4 witness: a POST with status 200 and a non-JSON body is normalized
without raising, and degrades its data to the empty dict. -/
theorem c4_normalizer_no_raise_amended_witness :
    ∃ r : Result, parse_response ⟨"POST", 200, none⟩ = .ok (some r) ∧
      (none = (none : Option JVal) → r.data = .obj []) :=
  c4_normalizer_no_raise_amended.1 "POST" 200 none (by decide) (by decide)

/-- C5: for a GET with status 200, the decoded body is probed for `data`,
then `config`, then `templateDefinition`, the first present and truthy
value becoming `Result.data`; in particular a body with a non-empty
`data` key yields that value with ok true, reason Success and empty
error. -/
theorem c5_success_data_priority :
    (∀ X : JVal, truthy X = true →
      parse_http_success ⟨"GET", 200, some (.obj [(DATA, X)])⟩ =
        .ok ⟨true, 200, .val (.str ""), .str "Success", X,
          ⟨"GET", 200, some (.obj [(DATA, X)])⟩⟩)
  ∧ (∀ (kvs : List (String × JVal)) (r : Result) (X : JVal),
      parse_http_success ⟨"GET", 200, some (.obj kvs)⟩ = .ok r →
      objGet kvs DATA = some X → truthy X = true →
      r.data = X)
  ∧ (∀ (kvs : List (String × JVal)) (r : Result) (Y : JVal),
      parse_http_success ⟨"GET", 200, some (.obj kvs)⟩ = .ok r →
      truthyOpt (objGet kvs DATA) = false →
      objGet kvs CONFIG = some Y → truthy Y = true →
      r.data = Y)
  ∧ (∀ (kvs : List (String × JVal)) (r : Result) (Z : JVal),
      parse_http_success ⟨"GET", 200, some (.obj kvs)⟩ = .ok r →
      truthyOpt (objGet kvs DATA) = false →
      truthyOpt (objGet kvs CONFIG) = false →
      objGet kvs TEMPLATE_DEFINITION = some Z → truthy Z = true →
      r.data = Z) := by
  refine ⟨?_, ?_, ?_, ?_⟩
  · intro X hX
    have hget : objGet [(DATA, X)] DATA = some X := rfl
    rw [parse_get_200_eq]
    simp [probeData, probeErr, hget, hX]
  · intro kvs r X hp hget hX
    rw [parse_get_200_eq] at hp
    cases hp
    simp [probeData, hget, hX]
  · intro kvs r Y hp hd hget hY
    rw [parse_get_200_eq] at hp
    cases hp
    simp [probeData, hd, hget, hY]
  · intro kvs r Z hp hd hc hget hZ
    rw [parse_get_200_eq] at hp
    cases hp
    simp [probeData, hd, hc, hget, hZ]

/-- C5 witness: the spec example body. -/
theorem c5_success_data_priority_witness :
    parse_http_success ⟨"GET", 200, some (.obj [(DATA, .list [.obj [("key", .str "value")]])])⟩ =
      .ok ⟨true, 200, .val (.str ""), .str "Success", .list [.obj [("key", .str "value")]],
        ⟨"GET", 200, some (.obj [(DATA, .list [.obj [("key", .str "value")]])])⟩⟩ :=
  c5_success_data_priority.1 (.list [.obj [("key", .str "value")]]) (by decide)

/-- C6: for every error-set status code and a JSON body of shape
`error.details` / `error.message`, the normalizer returns reason = details,
error = message, ok = false and empty data. -/
theorem c6_error_body_fields :
    ∀ (m : String) (status : Nat) (D M : JVal),
      codeMem HTTP_ERROR_CODES status = true →
      parse_http_error ⟨m, status,
          some (.obj [(ERROR, .obj [("details", D), ("message", M)])])⟩ =
        .ok ⟨false, status, .val M, D, .obj [],
          ⟨m, status, some (.obj [(ERROR, .obj [("details", D), ("message", M)])])⟩⟩ := by
  intro m status D M hs
  have hcases : 400 = status ∨ 403 = status ∨ 404 = status ∨ 406 = status ∨
      415 = status ∨ 500 = status := by
    simpa [codeMem, HTTP_ERROR_CODES, or_assoc] using hs
  rcases hcases with h | h | h | h | h | h <;> subst h <;> rfl

/-- C6 witness: the spec example scenario at status 400. -/
theorem c6_error_body_fields_witness :
    parse_http_error ⟨"GET", 400,
        some (.obj [(ERROR, .obj [("details", .str "error_details"),
          ("message", .str "error_message")])])⟩ =
      .ok ⟨false, 400, .val (.str "error_message"), .str "error_details", .obj [],
        ⟨"GET", 400, some (.obj [(ERROR, .obj [("details", .str "error_details"),
          ("message", .str "error_message")])])⟩⟩ :=
  c6_error_body_fields "GET" 400 (.str "error_details") (.str "error_message") (by decide)

/-- C7: a GET 200 whose decoded body has none of the `data`, `config`,
`templateDefinition` keys truthy yields empty data, the non-empty error
string about missing data, and ok still true (a soft condition). -/
theorem c7_no_data_soft :
    ∀ (kvs : List (String × JVal)),
      truthyOpt (objGet kvs DATA) = false →
      truthyOpt (objGet kvs CONFIG) = false →
      truthyOpt (objGet kvs TEMPLATE_DEFINITION) = false →
      parse_http_success ⟨"GET", 200, some (.obj kvs)⟩ =
        .ok ⟨true, 200, .val (.str "No data received from device"), .str "Success",
          .obj [], ⟨"GET", 200, some (.obj kvs)⟩⟩ := by
  intro kvs h1 h2 h3
  rw [parse_get_200_eq]
  simp [probeData, probeErr, h1, h2, h3]

/-- C7 witness: the spec example scenario with an empty body object. -/
theorem c7_no_data_soft_witness :
    parse_http_success ⟨"GET", 200, some (.obj [])⟩ =
      .ok ⟨true, 200, .val (.str "No data received from device"), .str "Success",
        .obj [], ⟨"GET", 200, some (.obj [])⟩⟩ :=
  c7_no_data_soft [] (by decide) (by decide) (by decide)

/-- C8: an error-set status code with a non-JSON body yields the fixed
reason phrase for that code and stores the decode failure (truthy, and not
the fixed phrase) in the error field, with ok false and empty data. -/
theorem c8_error_nonjson_fallback :
    ∀ (m : String) (status : Nat) (phrase : String),
      (status, phrase) ∈ HTTP_ERROR_CODES →
      parse_http_error ⟨m, status, none⟩ =
        .ok ⟨false, status, .exc (.jsonDecodeError decodeFailMsg), .str phrase, .obj [],
          ⟨m, status, none⟩⟩
      ∧ errTruthy (.exc (.jsonDecodeError decodeFailMsg)) = true
      ∧ ErrField.exc (.jsonDecodeError decodeFailMsg) ≠ .val (.str phrase) := by
  intro m status phrase hmem
  simp only [HTTP_ERROR_CODES, List.mem_cons, List.mem_singleton, Prod.mk.injEq,
    List.not_mem_nil, or_false] at hmem
  rcases hmem with ⟨h1, h2⟩ | ⟨h1, h2⟩ | ⟨h1, h2⟩ | ⟨h1, h2⟩ | ⟨h1, h2⟩ | ⟨h1, h2⟩ <;>
    subst h1 <;> subst h2 <;> exact ⟨rfl, rfl, by decide⟩

/-- C8 witness: status 400 with a non-JSON body. -/
theorem c8_error_nonjson_fallback_witness :
    parse_http_error ⟨"POST", 400, none⟩ =
      .ok ⟨false, 400, .exc (.jsonDecodeError decodeFailMsg), .str "Bad Request", .obj [],
        ⟨"POST", 400, none⟩⟩
    ∧ errTruthy (.exc (.jsonDecodeError decodeFailMsg)) = true
    ∧ ErrField.exc (.jsonDecodeError decodeFailMsg) ≠ .val (.str "Bad Request") :=
  c8_error_nonjson_fallback "POST" 400 "Bad Request" (by decide)

/-- C10: `check_post_response` classifies by the truthiness of the error
field alone: a falsy error (the empty string) passes the Result through
with no log and no raise regardless of `ok` and `raise_error`; a truthy
error raises exactly when `raise_error` is set, and otherwise returns the
Result unchanged with the diagnostic logged, regardless of `ok`. -/
theorem c10_check_post_response_truthiness :
    ∀ (r : Result) (b : Bool),
      (r.error = .val (.str "") → check_post_response r b = .ok (r, []))
    ∧ (errTruthy r.error = true →
        (b = true → check_post_response r b =
          .error (.exception "Failure in POST operation."))
      ∧ (b = false → check_post_response r b =
          .ok (r, ["Failure in POST operation: " ++ pyStr r.reason ++ "."]))) := by
  intro r b
  constructor
  · intro he
    simp [check_post_response, he, errTruthy, truthy, String.isEmpty]
  · intro ht
    constructor <;> intro hb <;> subst hb <;> simp [check_post_response, ht]

/-- C10 witness: a Result with ok = false but an empty error string passes
through untouched even with raise_error = true. -/
theorem c10_check_post_response_truthiness_witness :
    check_post_response ⟨false, 500, .val (.str ""), .str "Internal Server Error",
      .obj [], ⟨"POST", 500, some (.obj [])⟩⟩ true =
      .ok (⟨false, 500, .val (.str ""), .str "Internal Server Error",
        .obj [], ⟨"POST", 500, some (.obj [])⟩⟩, []) :=
  (c10_check_post_response_truthiness ⟨false, 500, .val (.str ""),
    .str "Internal Server Error", .obj [], ⟨"POST", 500, some (.obj [])⟩⟩ true).1 rfl

/-! ## The vManage target server model

The Provisioning Engine drives an external vManage server through the
HTTP Verb Gateway (`Viptela.get` / `Viptela.post`, viptela.py lines
144-197, both of which normalize through `parse_response`).  The server
itself is not part of the repository; it is modelled here per the spec
contract (sections 4.2 and 6): GETs list the existing objects of a kind
wrapped in a `data` envelope, POSTs append a new object and assign it a
fresh server id, a feature-template POST answers with the new
`templateId`.  The engine's `base_url` is taken as the empty string so
requests carry exactly the constant paths. -/

/-- A feature template stored on the target server. -/
structure SFeature where
  templateName : JVal
  templateId : JVal
  payload : JVal
deriving DecidableEq

/-- A vEdge policy stored on the target server. -/
structure SPolicy where
  policyName : JVal
  policyId : JVal
  payload : JVal
deriving DecidableEq

/-- A device template stored on the target server. -/
structure SDevice where
  templateName : JVal
  payload : JVal
deriving DecidableEq

/-- The target server state: the remote object sets plus a counter for
fresh server-assigned ids. -/
structure Server where
  features : List SFeature
  policies : List SPolicy
  devices : List SDevice
  nextId : Nat
deriving DecidableEq

/-- The JSON entry a feature-template listing returns for one feature. -/
def featJVal (f : SFeature) : JVal :=
  .obj [(TEMPLATE_NAME, f.templateName), (TEMPLATE_ID, f.templateId)]

/-- The JSON entry a policy listing returns for one policy. -/
def polJVal (p : SPolicy) : JVal :=
  .obj [(POLICY_NAME, p.policyName), (POLICY_ID, p.policyId)]

/-- The JSON entry a device-template listing returns for one device
template. -/
def devJVal (d : SDevice) : JVal :=
  .obj [(TEMPLATE_NAME, d.templateName)]

/-- The raw response the server produces for a GET on one of the three
listing paths: status 200 with the objects wrapped in a `data` envelope. -/
def serverGetRaw (s : Server) (url : String) : RawResponse :=
  if url = FEATURE_PATH then
    ⟨"GET", 200, some (.obj [(DATA, .list (s.features.map featJVal))])⟩
  else if url = VEDGE_POLICY_PATH then
    ⟨"GET", 200, some (.obj [(DATA, .list (s.policies.map polJVal))])⟩
  else if url = DEVICE_PATH then
    ⟨"GET", 200, some (.obj [(DATA, .list (s.devices.map devJVal))])⟩
  else
    ⟨"GET", 404, some (.obj [(ERROR, .obj [("details", .str "Invalid API"),
      ("message", .str "Resource not found")])])⟩

/-- A fresh server-assigned object id. -/
def freshId (s : Server) : JVal := .str ("srv-" ++ toString s.nextId)

/-- Total object lookup with a None default, used by the server model to
read the name field out of a posted payload. -/
def objGetJ (j : JVal) (k : String) : JVal :=
  match j with
  | .obj entries => ((entries.find? (fun kv => kv.1 = k)).map (fun kv => kv.2)).getD .null
  | _ => .null

/-- The server effect of a POST: append the object described by the
payload under a fresh id and answer with status 200 (a feature POST
returns the new `templateId` in its body, as the engine relies on). -/
def serverPost (s : Server) (url : String) (payload : JVal) : Server × RawResponse :=
  if url = FEATURE_PATH then
    ({ s with
        features := s.features ++
          [⟨(objGetJ payload TEMPLATE_NAME), freshId s, payload⟩],
        nextId := s.nextId + 1 },
      ⟨"POST", 200, some (.obj [(TEMPLATE_ID, freshId s)])⟩)
  else if url = VEDGE_POLICY_PATH then
    ({ s with
        policies := s.policies ++
          [⟨(objGetJ payload POLICY_NAME), freshId s, payload⟩],
        nextId := s.nextId + 1 },
      ⟨"POST", 200, some (.obj [])⟩)
  else if url = DEVICE_FEATURE_PATH then
    ({ s with
        devices := s.devices ++ [⟨(objGetJ payload TEMPLATE_NAME), payload⟩] },
      ⟨"POST", 200, some (.obj [])⟩)
  else
    (s, ⟨"POST", 404, some (.obj [(ERROR, .obj [("details", .str "Invalid API"),
      ("message", .str "Resource not found")])])⟩)

/-- `api_class.get(session, url).data`: GET through the gateway, normalize
through `parse_response`, take the `data` attribute (an unclassified
status would make `parse_response` return None, whose attribute access
raises). -/
def apiGetData (s : Server) (url : String) : Except PyExc JVal := do
  match ← parse_response (serverGetRaw s url) with
  | some r => pure r.data
  | none => throw .attributeError

/-- `check_post_response(api_class.post(session, url, data=json.dumps(p)))`:
POST through the gateway, normalize, run the post-response check with its
default `raise_error=False`. -/
def apiPostChecked (s : Server) (url : String) (payload : JVal) :
    Except PyExc (Server × Result) := do
  let (s2, raw) := serverPost s url payload
  match ← parse_response raw with
  | some r => do
      let checked ← check_post_response r false
      pure (s2, checked.1)
  | none => throw .attributeError

/-! ## The Template Provisioning Engine (utils.py lines 167-269)

`import_provisioning_templates` below follows the source statement by
statement.  `copy.deepcopy(device_template)` is rendered as the value
itself: the embedding works on immutable values, so the copy and the
original coincide as values and the rewrite builds a new value (template
data read from JSON files is a tree, so in-place mutation of the deep copy
and functional update agree; the separate heap model further below
accounts for the mutation side of the story). -/

/-- Sequential effectful map, the monadic rendering of a Python `for`
loop that transforms each element and stops at the first exception. -/
def mapME {α : Type} (f : JVal → Except PyExc α) : List JVal → Except PyExc (List α)
  | [] => .ok []
  | a :: as => do
      let b ← f a
      let bs ← mapME f as
      pure (b :: bs)

/-- The per-import ID Mapping (`id_map`), a Python dict keyed by the
feature-bundle keys.  Lookup takes the first binding. -/
def idLookup (m : List (JVal × JVal)) (k : JVal) : Option JVal :=
  (m.find? (fun kv => kv.1 == k)).map (fun kv => kv.2)

/-- `id_map[template_id] = new_template_id`: replace the first binding,
append when the key is new. -/
def idSet (m : List (JVal × JVal)) (k v : JVal) : List (JVal × JVal) :=
  match m with
  | [] => [(k, v)]
  | kv :: rest => if kv.1 == k then (k, v) :: rest else kv :: idSet rest k v

/-- `id_map[feature[TEMPLATE_ID]]`: dict lookup by an arbitrary value,
`TypeError` for unhashable keys, `KeyError` when absent. -/
def idFetch (m : List (JVal × JVal)) (k : JVal) : Except PyExc JVal :=
  match k with
  | .list _ => .error .typeError
  | .obj _ => .error .typeError
  | _ =>
      match idLookup m k with
      | some v => .ok v
      | none => .error (.keyError k)

/-- `_check_policy` body (utils.py lines 170-177): list the target's vEdge
policies and linearly scan for the name, returning the matching policy's
id or Python `False`. -/
def scanPolicies (items : List JVal) (policy_name : JVal) : Except PyExc JVal :=
  match items with
  | [] => .ok (.bool false)
  | p :: rest => do
      let pn ← pyGetItemS p POLICY_NAME
      if pn == policy_name then pyGetItemS p POLICY_ID
      else scanPolicies rest policy_name

/-- `_check_policy(policy_name)` (utils.py lines 170-177). -/
def check_policy (s : Server) (policy_name : JVal) : Except PyExc JVal := do
  let return_data ← apiGetData s VEDGE_POLICY_PATH
  let items ← pyIterE return_data
  scanPolicies items policy_name

/-- The feature-name-to-id dict comprehension of utils.py lines 198-201:
`{k[TEMPLATE_NAME]: k[TEMPLATE_ID] for k in feature_template_id_map_data}`.
The pair list keeps comprehension order; a later duplicate name overrides
an earlier one, so lookup takes the last match. -/
def featurePairs (s : Server) : Except PyExc (List (JVal × JVal)) := do
  let feature_template_id_map_data ← apiGetData s FEATURE_PATH
  let ks ← pyIterE feature_template_id_map_data
  mapME (fun k => do
    let n ← pyGetItemS k TEMPLATE_NAME
    let i ← pyGetItemS k TEMPLATE_ID
    pure (n, i)) ks

/-- `template_name in feature_template_id_map`. -/
def pairsMem (pairs : List (JVal × JVal)) (name : JVal) : Bool :=
  pairs.any (fun kv => kv.1 == name)

/-- `feature_template_id_map[template_name]`: Python dict comprehension
semantics, the last binding of a duplicated name wins. -/
def pairsLookupLast (pairs : List (JVal × JVal)) (name : JVal) : Option JVal :=
  (pairs.reverse.find? (fun kv => kv.1 == name)).map (fun kv => kv.2)

/-- One iteration of the feature loop (utils.py lines 190-212): project
the bundle entry to the recognized feature fields, list the target's
feature templates, reuse the id when the name exists, otherwise POST the
projection and take the assigned id from the response; record the result
in the ID Mapping. -/
def processFeature (feature_data : JVal) (acc : Server × List (JVal × JVal))
    (template_id : JVal) : Except PyExc (Server × List (JVal × JVal)) := do
  let (s, id_map) := acc
  let entry ← pyGetItemV feature_data template_id
  let fd ← pyProject entry FEATURE_KEYS
  let pairs ← featurePairs s
  let template_name ← pyGetItemS fd TEMPLATE_NAME
  if pairsMem pairs template_name then
    let new_template_id := (pairsLookupLast pairs template_name).getD .null
    pure (s, idSet id_map template_id new_template_id)
  else
    let (s2, post_response) ← apiPostChecked s FEATURE_PATH fd
    let new_template_id ← pyGetItemS post_response.data TEMPLATE_ID
    pure (s2, idSet id_map template_id new_template_id)

/-- Innermost reference rewrite (utils.py lines 220 and 224):
`template[TEMPLATE_ID] = id_map[template[TEMPLATE_ID]]`. -/
def rewriteLeafTemplate (id_map : List (JVal × JVal)) (t : JVal) : Except PyExc JVal := do
  let oldId ← pyGetItemS t TEMPLATE_ID
  let newId ← idFetch id_map oldId
  pure (pySet t TEMPLATE_ID newId)

/-- Rewrite of one nested `subTemplates` reference (utils.py lines
218-221): first its own doubly-nested `subTemplates`, then its own id. -/
def rewriteSubTemplate (id_map : List (JVal × JVal)) (st : JVal) : Except PyExc JVal := do
  let st1 ←
    match ← pyDictGet st SUB_TEMPLATES with
    | none => pure st
    | some inner => do
        let items ← pyIterE inner
        let items2 ← mapME (rewriteLeafTemplate id_map) items
        pure (pySet st SUB_TEMPLATES (.list items2))
  let oldId ← pyGetItemS st1 TEMPLATE_ID
  let newId ← idFetch id_map oldId
  pure (pySet st1 TEMPLATE_ID newId)

/-- Rewrite of one top-level `generalTemplates` reference (utils.py lines
215-221). -/
def rewriteGeneralTemplate (id_map : List (JVal × JVal)) (ft : JVal) : Except PyExc JVal := do
  let oldId ← pyGetItemS ft TEMPLATE_ID
  let newId ← idFetch id_map oldId
  let ft1 := pySet ft TEMPLATE_ID newId
  match ← pyDictGet ft1 SUB_TEMPLATES with
  | none => pure ft1
  | some subs => do
      let items ← pyIterE subs
      let items2 ← mapME (rewriteSubTemplate id_map) items
      pure (pySet ft1 SUB_TEMPLATES (.list items2))

/-- The reference rewrite of the deep-copied device template (utils.py
lines 214-224): every `generalTemplates` reference at its three nesting
levels and every `featureTemplateUidRange` entry has its `templateId`
mapped through the ID Mapping. -/
def rewriteDeviceTemplate (id_map : List (JVal × JVal)) (device_template : JVal) :
    Except PyExc JVal := do
  let gts ← pyGetItemS device_template GENERAL_TEMPLATES
  let items ← pyIterE gts
  let items2 ← mapME (rewriteGeneralTemplate id_map) items
  let dt1 := pySet device_template GENERAL_TEMPLATES (.list items2)
  match ← pyDictGet dt1 UID_RANGE with
  | none => pure dt1
  | some ur => do
      let urItems ← pyIterE ur
      let urItems2 ← mapME (rewriteLeafTemplate id_map) urItems
      pure (pySet dt1 UID_RANGE (.list urItems2))

/-- The policy linkage step (utils.py lines 226-245), entered when the
device template carries a truthy `policyId`: look up the policy bundle
(default empty dict), evaluate the dead membership test, index the bundle
by the policy id (the `KeyError` of claim C3 lives here), find or create
the policy on the target by name, and write the re-resolved id into the
copied device template. -/
def processPolicy (template_dict device_template new_device_template : JVal)
    (s : Server) : Except PyExc (Server × JVal) := do
  let nameV ← pyGetItemS device_template TEMPLATE_NAME
  let policy_data := (← pyDictGet template_dict (pyStr nameV ++ "_policy")).getD (.obj [])
  let policy_id ← pyGetItemS device_template POLICY_ID
  let _ ← pyMem policy_id policy_data
  let pd ← pyGetItemV policy_data policy_id
  let pdName ← pyGetItemS pd POLICY_NAME
  let new_policy_id ← check_policy s pdName
  if truthy new_policy_id then
    pure (s, pySet new_device_template POLICY_ID new_policy_id)
  else
    let pd2 ← pyProject pd POLICY_KEYS
    let (s2, _) ← apiPostChecked s VEDGE_POLICY_PATH pd2
    let pdName2 ← pyGetItemS pd2 POLICY_NAME
    let npid ← check_policy s2 pdName2
    pure (s2, pySet new_device_template POLICY_ID npid)

/-- The device-template existence scan (utils.py lines 250-256): walk the
target's device-template list, comparing each entry's name with the
rewritten template's name (both subscripts evaluated inside the loop), and
stop at the first match. -/
def scanDevices (new_device_template : JVal) (devices : List JVal) : Except PyExc Bool :=
  match devices with
  | [] => .ok false
  | d :: rest => do
      let dn ← pyGetItemS d TEMPLATE_NAME
      let myn ← pyGetItemS new_device_template TEMPLATE_NAME
      if dn == myn then .ok true
      else scanDevices new_device_template rest

/-- One iteration of the device-template loop (utils.py lines 180-268). -/
def processDeviceTemplate (template_dict : JVal) (s : Server) (device_template : JVal) :
    Except PyExc Server := do
  let nameV ← pyGetItemS device_template TEMPLATE_NAME
  let feature_data_opt ← pyDictGet template_dict (pyStr nameV ++ "_features")
  match feature_data_opt with
  | none => pure s
  | some feature_data =>
    if truthy feature_data = false then pure s
    else do
      let templateIds ← pyIterE feature_data
      let (s2, id_map) ← templateIds.foldlM (processFeature feature_data) (s, [])
      let new_dt ← rewriteDeviceTemplate id_map device_template
      let policyProbe ← pyDictGet device_template POLICY_ID
      let (s3, new_dt2) ←
        if truthyOpt policyProbe then
          processPolicy template_dict device_template new_dt s2
        else
          pure (s2, new_dt)
      let projected ← pyProject new_dt2 DEVICE_TEMPLATE_KEYS
      let devData ← apiGetData s3 DEVICE_PATH
      let devices ← pyIterE devData
      let template_exists ← scanDevices projected devices
      if template_exists then pure s3
      else do
        let (s4, _) ← apiPostChecked s3 DEVICE_FEATURE_PATH projected
        pure s4

/-- `import_provisioning_templates(api_class, template_dict)` (utils.py
lines 167-269): iterate the device-template collection, skipping device
templates without a (truthy) feature bundle, resolving features, rewriting
references, linking the policy and creating the device template when its
name is not already on the target. -/
def import_provisioning_templates (s : Server) (template_dict : JVal) :
    Except PyExc Server := do
  let device_template_data ← pyDictGet template_dict "device_template"
  let templates ←
    match device_template_data with
    | none => throw .typeError
    | some dtd => pyGetItemS dtd "templates"
  let items ← pyIterE templates
  items.foldlM (processDeviceTemplate template_dict) s

/-! ## Claim C3: missing policy data -/

/-- An empty target server. -/
def emptyServer : Server := ⟨[], [], [], 0⟩

/-- A device template that references policy id `p1`. -/
def c3DeviceTemplate : JVal :=
  .obj [(TEMPLATE_NAME, .str "t1"),
        (GENERAL_TEMPLATES, .list [.obj [(TEMPLATE_ID, .str "f1")]]),
        (POLICY_ID, .str "p1")]

/-- An input mapping whose `t1_policy` bundle is absent entirely, so the
policy lookup falls back to the empty dict and `p1` is not a key of it. -/
def c3TemplateDict : JVal :=
  .obj [("device_template", .obj [("templates", .list [c3DeviceTemplate])]),
        ("t1_features", .obj [("f1", .obj [(TEMPLATE_NAME, .str "feat1")])])]

/-- C3: the claim (and the spec) say a policy id absent from the policy
bundle is treated as missing data and the import proceeds without
raising; the code instead evaluates the membership test, discards it
(`if policy_id not in policy_data: pass`), and then subscripts the bundle
unconditionally, so the import of this device template dies with a
`KeyError` on the missing policy id. -/
theorem c3_policy_missing_raises :
    import_provisioning_templates emptyServer c3TemplateDict =
      .error (.keyError (.str "p1")) := rfl

/-! ## Claim C1: reference-rewrite correctness -/

/-- The `templateId` of a reference entry (None default, a reference that
the code touches always has one). -/
def leafId (t : JVal) : JVal := objGetJ t TEMPLATE_ID

/-- The list a key holds, empty when the key is absent or not a list. -/
def jGetListD (j : JVal) (k : String) : List JVal :=
  match objGetJ j k with
  | .list items => items
  | _ => []

/-- All `templateId`s of a nested `subTemplates` reference: its
doubly-nested references' ids, then its own. -/
def subEntryIds (st : JVal) : List JVal :=
  (jGetListD st SUB_TEMPLATES).map leafId ++ [leafId st]

/-- All `templateId`s of a top-level `generalTemplates` reference. -/
def entryIdsTop (ft : JVal) : List JVal :=
  leafId ft :: (jGetListD ft SUB_TEMPLATES).flatMap subEntryIds

/-- Every `templateId` the reference rewrite touches, in traversal order:
the three `generalTemplates` nesting levels, then the
`featureTemplateUidRange` entries. -/
def collectRefIds (dt : JVal) : List JVal :=
  (jGetListD dt GENERAL_TEMPLATES).flatMap entryIdsTop ++
    (jGetListD dt UID_RANGE).map leafId

/-- Shape check of an innermost reference: an object with a `templateId`. -/
def wfLeaf (t : JVal) : Bool :=
  match t with
  | .obj kvs => (objGet kvs TEMPLATE_ID).isSome
  | _ => false

/-- Shape check of a nested `subTemplates` reference. -/
def wfSub (st : JVal) : Bool :=
  match st with
  | .obj kvs =>
      (objGet kvs TEMPLATE_ID).isSome &&
      (match objGet kvs SUB_TEMPLATES with
       | none => true
       | some (.list items) => items.all wfLeaf
       | some _ => false)
  | _ => false

/-- Shape check of a top-level `generalTemplates` reference. -/
def wfGeneral (ft : JVal) : Bool :=
  match ft with
  | .obj kvs =>
      (objGet kvs TEMPLATE_ID).isSome &&
      (match objGet kvs SUB_TEMPLATES with
       | none => true
       | some (.list items) => items.all wfSub
       | some _ => false)
  | _ => false

/-- Shape check of a device template for the reference rewrite: a
`generalTemplates` list of well-formed references and an optional
`featureTemplateUidRange` list of id entries. -/
def wfDeviceRefs (dt : JVal) : Bool :=
  match dt with
  | .obj kvs =>
      (match objGet kvs GENERAL_TEMPLATES with
       | some (.list items) => items.all wfGeneral
       | _ => false) &&
      (match objGet kvs UID_RANGE with
       | none => true
       | some (.list items) => items.all wfLeaf
       | some _ => false)
  | _ => false

/-- The image of an id under the ID Mapping (None when absent, which the
covered hypothesis rules out). -/
def mappedOf (m : List (JVal × JVal)) (v : JVal) : JVal :=
  match idFetch m v with
  | .ok x => x
  | .error _ => .null

/-- Every referenced original id is a key of the mapping. -/
def coveredB (m : List (JVal × JVal)) (dt : JVal) : Bool :=
  (collectRefIds dt).all (fun v =>
    match idFetch m v with
    | .ok _ => true
    | .error _ => false)

/-- The mapping sends every referenced id to an id outside the referenced
original ids (the fresh-server-ids condition). -/
def freshB (m : List (JVal × JVal)) (dt : JVal) : Bool :=
  (collectRefIds dt).all (fun w =>
    (collectRefIds dt).all (fun v => !(mappedOf m w == v)))

theorem objGet_go_same (k : String) (v : JVal) :
    ∀ kvs, objGet (pySet.go k v kvs) k = some v := by
  intro kvs
  induction kvs with
  | nil => simp [pySet.go, objGet]
  | cons kv rest ih =>
      by_cases h : kv.1 = k
      · simp [pySet.go, h, objGet]
      · simp only [pySet.go, if_neg h]
        simpa [objGet, List.find?_cons, h] using ih

theorem objGet_go_ne (k : String) (v : JVal) (k2 : String) (hne : k2 ≠ k) :
    ∀ kvs, objGet (pySet.go k v kvs) k2 = objGet kvs k2 := by
  have hne2 : ¬ k = k2 := Ne.symm hne
  intro kvs
  induction kvs with
  | nil => simp [pySet.go, objGet, hne2]
  | cons kv rest ih =>
      by_cases h : kv.1 = k
      · subst h
        simp [pySet.go, objGet, List.find?_cons, Ne.symm hne]
      · by_cases h2 : kv.1 = k2
        · simp [pySet.go, hne, h, objGet, List.find?_cons, h2]
        · simp only [pySet.go, if_neg h]
          simpa [objGet, List.find?_cons, h2] using ih

theorem pySet_obj_eq (kvs : List (String × JVal)) (k : String) (v : JVal) :
    pySet (.obj kvs) k v = .obj (pySet.go k v kvs) := rfl

theorem objGetJ_obj_eq (kvs : List (String × JVal)) (k : String) :
    objGetJ (.obj kvs) k = (objGet kvs k).getD .null := rfl

theorem mappedOf_of_fetch (m : List (JVal × JVal)) (v x : JVal)
    (h : idFetch m v = .ok x) : mappedOf m v = x := by
  simp [mappedOf, h]

theorem mapME_nil_ok {α : Type} (f : JVal → Except PyExc α) (l : List α)
    (h : mapME f [] = .ok l) : l = [] := by
  simpa [mapME] using h.symm

theorem mapME_cons_ok {α : Type} (f : JVal → Except PyExc α) (a : JVal)
    (as : List JVal) (l : List α) (h : mapME f (a :: as) = .ok l) :
    ∃ b bs, f a = .ok b ∧ mapME f as = .ok bs ∧ l = b :: bs := by
  cases hfa : f a with
  | error e => rw [mapME, hfa] at h; cases h
  | ok b =>
      cases hrest : mapME f as with
      | error e => rw [mapME, hfa, hrest] at h; cases h
      | ok bs =>
          rw [mapME, hfa, hrest] at h
          simp only [exceptBind_ok] at h
          refine ⟨b, bs, rfl, rfl, ?_⟩
          cases h
          rfl

theorem pyGetItemS_obj_some (kvs : List (String × JVal)) (k : String) (x : JVal)
    (h : pyGetItemS (.obj kvs) k = .ok x) : objGet kvs k = some x := by
  have h2 : (match kvs.find? (fun kv => kv.1 = k) with
      | some kv => (Except.ok kv.2 : Except PyExc JVal)
      | none => .error (.keyError (.str k))) = .ok x := h
  unfold objGet
  cases hf : kvs.find? (fun kv => kv.1 = k) with
  | none => rw [hf] at h2; cases h2
  | some kv => rw [hf] at h2; cases h2; rfl

theorem pyGetItemS_ok_obj (t : JVal) (k : String) (x : JVal)
    (h : pyGetItemS t k = .ok x) : ∃ kvs, t = .obj kvs := by
  cases t with
  | obj kvs => exact ⟨kvs, rfl⟩
  | null => simp [pyGetItemS, pyGetItemV] at h
  | bool b => simp [pyGetItemS, pyGetItemV] at h
  | int n => simp [pyGetItemS, pyGetItemV] at h
  | str s => simp [pyGetItemS, pyGetItemV] at h
  | list items => simp [pyGetItemS, pyGetItemV] at h

theorem rewriteLeaf_id (m : List (JVal × JVal)) (t t2 : JVal)
    (h : rewriteLeafTemplate m t = .ok t2) :
    leafId t2 = mappedOf m (leafId t) := by
  unfold rewriteLeafTemplate at h
  cases hget : pyGetItemS t TEMPLATE_ID with
  | error e => rw [hget] at h; simp at h
  | ok old =>
      rw [hget] at h
      simp only [exceptBind_ok] at h
      cases hfetch : idFetch m old with
      | error e => rw [hfetch] at h; simp at h
      | ok newv =>
          rw [hfetch] at h
          simp only [exceptBind_ok] at h
          have ht2 : t2 = pySet t TEMPLATE_ID newv := by
            simpa [pure, Except.pure] using h.symm
          obtain ⟨kvs, hkvs⟩ := pyGetItemS_ok_obj t TEMPLATE_ID old hget
          subst hkvs
          have hsome : objGet kvs TEMPLATE_ID = some old :=
            pyGetItemS_obj_some kvs TEMPLATE_ID old hget
          subst ht2
          rw [leafId, pySet_obj_eq, objGetJ_obj_eq, objGet_go_same,
            leafId, objGetJ_obj_eq, hsome]
          simp [mappedOf_of_fetch m old newv hfetch]


theorem mapME_leaf_ids (m : List (JVal × JVal)) :
    ∀ (items : List JVal) (items2 : List JVal),
      mapME (rewriteLeafTemplate m) items = .ok items2 →
      items2.map leafId = items.map (fun t => mappedOf m (leafId t)) := by
  intro items
  induction items with
  | nil => intro items2 h; rw [mapME_nil_ok _ _ h]; rfl
  | cons a as ih =>
      intro items2 h
      obtain ⟨b, bs, hb, hbs, hl⟩ := mapME_cons_ok _ _ _ _ h
      subst hl
      simp [rewriteLeaf_id m a b hb, ih bs hbs]

theorem key_ne_sub_tid : SUB_TEMPLATES ≠ TEMPLATE_ID := by decide

theorem rewriteSub_ids (m : List (JVal × JVal)) (st st2 : JVal)
    (hwf : wfSub st = true) (h : rewriteSubTemplate m st = .ok st2) :
    subEntryIds st2 = (subEntryIds st).map (mappedOf m) := by
  cases st with
  | null => simp [wfSub] at hwf
  | bool b => simp [wfSub] at hwf
  | int n => simp [wfSub] at hwf
  | str s => simp [wfSub] at hwf
  | list items => simp [wfSub] at hwf
  | obj kvs =>
      rw [wfSub, Bool.and_eq_true] at hwf
      obtain ⟨hid, hsub⟩ := hwf
      obtain ⟨old, hold⟩ : ∃ old, objGet kvs TEMPLATE_ID = some old := by
        cases hx : objGet kvs TEMPLATE_ID with
        | none => rw [hx] at hid; cases hid
        | some v => exact ⟨v, rfl⟩
      unfold rewriteSubTemplate at h
      rw [pyDictGet_obj] at h
      simp only [exceptBind_ok] at h
      cases hS : objGet kvs SUB_TEMPLATES with
      | none =>
          rw [hS] at h
          simp only [pure, Except.pure, exceptBind_ok] at h
          rw [pyGetItemS_of_objGet kvs TEMPLATE_ID old hold] at h
          simp only [exceptBind_ok] at h
          cases hf : idFetch m old with
          | error e => rw [hf] at h; simp at h
          | ok newv =>
              rw [hf] at h
              simp only [exceptBind_ok] at h
              have hst2 : st2 = pySet (.obj kvs) TEMPLATE_ID newv := by
                simpa [pure, Except.pure] using h.symm
              subst hst2
              rw [subEntryIds, subEntryIds]
              rw [pySet_obj_eq]
              rw [jGetListD, jGetListD, objGetJ_obj_eq, objGetJ_obj_eq,
                objGet_go_ne TEMPLATE_ID newv SUB_TEMPLATES key_ne_sub_tid, hS]
              rw [leafId, leafId, objGetJ_obj_eq, objGetJ_obj_eq, objGet_go_same, hold]
              simp [mappedOf_of_fetch m old newv hf]
      | some inner =>
          rw [hS] at h
          rw [hS] at hsub
          cases inner with
          | list items =>
              simp only [pyIterE, exceptBind_ok] at h
              cases hmap : mapME (rewriteLeafTemplate m) items with
              | error e => rw [hmap] at h; simp at h
              | ok items2 =>
                  rw [hmap] at h
                  simp only [exceptBind_ok] at h
                  rw [pySet_obj_eq] at h
                  simp only [pure, Except.pure, exceptBind_ok] at h
                  have hTID : objGet (pySet.go SUB_TEMPLATES (.list items2) kvs)
                      TEMPLATE_ID = some old := by
                    rw [objGet_go_ne SUB_TEMPLATES (.list items2) TEMPLATE_ID
                      (Ne.symm key_ne_sub_tid), hold]
                  rw [pyGetItemS_of_objGet _ TEMPLATE_ID old hTID] at h
                  simp only [exceptBind_ok] at h
                  cases hf : idFetch m old with
                  | error e => rw [hf] at h; simp at h
                  | ok newv =>
                      rw [hf] at h
                      simp only [exceptBind_ok] at h
                      have hst2 : st2 = pySet
                          (.obj (pySet.go SUB_TEMPLATES (.list items2) kvs))
                          TEMPLATE_ID newv := by
                        simpa [pure, Except.pure] using h.symm
                      subst hst2
                      rw [subEntryIds, subEntryIds]
                      rw [pySet_obj_eq]
                      rw [jGetListD, jGetListD, objGetJ_obj_eq, objGetJ_obj_eq,
                        objGet_go_ne TEMPLATE_ID newv SUB_TEMPLATES key_ne_sub_tid,
                        objGet_go_same, hS]
                      rw [leafId, leafId, objGetJ_obj_eq, objGetJ_obj_eq,
                        objGet_go_same, hold]
                      simp [mappedOf_of_fetch m old newv hf,
                        mapME_leaf_ids m items items2 hmap]
          | null => cases hsub
          | bool b => cases hsub
          | int n => cases hsub
          | str s => cases hsub
          | obj entries => cases hsub

theorem mapME_sub_ids (m : List (JVal × JVal)) :
    ∀ (subs subs2 : List JVal), subs.all wfSub = true →
      mapME (rewriteSubTemplate m) subs = .ok subs2 →
      subs2.flatMap subEntryIds = (subs.flatMap subEntryIds).map (mappedOf m) := by
  intro subs
  induction subs with
  | nil => intro subs2 _ h; rw [mapME_nil_ok _ _ h]; rfl
  | cons a as ih =>
      intro subs2 hall h
      rw [List.all_cons, Bool.and_eq_true] at hall
      obtain ⟨b, bs, hb, hbs, hl⟩ := mapME_cons_ok _ _ _ _ h
      subst hl
      simp only [List.flatMap_cons, List.map_append]
      rw [rewriteSub_ids m a b hall.1 hb, ih bs hall.2 hbs]

theorem key_ne_sub_gt : SUB_TEMPLATES ≠ TEMPLATE_ID := by decide

theorem rewriteGeneral_ids (m : List (JVal × JVal)) (ft ft2 : JVal)
    (hwf : wfGeneral ft = true) (h : rewriteGeneralTemplate m ft = .ok ft2) :
    entryIdsTop ft2 = (entryIdsTop ft).map (mappedOf m) := by
  cases ft with
  | null => simp [wfGeneral] at hwf
  | bool b => simp [wfGeneral] at hwf
  | int n => simp [wfGeneral] at hwf
  | str s => simp [wfGeneral] at hwf
  | list items => simp [wfGeneral] at hwf
  | obj kvs =>
      rw [wfGeneral, Bool.and_eq_true] at hwf
      obtain ⟨hid, hsub⟩ := hwf
      obtain ⟨old, hold⟩ : ∃ old, objGet kvs TEMPLATE_ID = some old := by
        cases hx : objGet kvs TEMPLATE_ID with
        | none => rw [hx] at hid; cases hid
        | some v => exact ⟨v, rfl⟩
      unfold rewriteGeneralTemplate at h
      rw [pyGetItemS_of_objGet kvs TEMPLATE_ID old hold] at h
      simp only [exceptBind_ok] at h
      cases hf : idFetch m old with
      | error e => rw [hf] at h; simp at h
      | ok newv =>
          rw [hf] at h
          simp only [exceptBind_ok, pySet_obj_eq] at h
          rw [pyDictGet_obj] at h
          simp only [exceptBind_ok] at h
          rw [objGet_go_ne TEMPLATE_ID newv SUB_TEMPLATES key_ne_sub_tid] at h
          cases hS : objGet kvs SUB_TEMPLATES with
          | none =>
              rw [hS] at h
              simp only [pure, Except.pure] at h
              have hft2 : ft2 = .obj (pySet.go TEMPLATE_ID newv kvs) := by
                cases h; rfl
              subst hft2
              rw [entryIdsTop, entryIdsTop]
              rw [jGetListD, jGetListD, objGetJ_obj_eq, objGetJ_obj_eq,
                objGet_go_ne TEMPLATE_ID newv SUB_TEMPLATES key_ne_sub_tid, hS]
              rw [leafId, leafId, objGetJ_obj_eq, objGetJ_obj_eq, objGet_go_same, hold]
              simp [mappedOf_of_fetch m old newv hf]
          | some inner =>
              rw [hS] at h
              rw [hS] at hsub
              cases inner with
              | list subs =>
                  simp only [pyIterE, exceptBind_ok] at h
                  cases hmap : mapME (rewriteSubTemplate m) subs with
                  | error e => rw [hmap] at h; simp at h
                  | ok subs2 =>
                      rw [hmap] at h
                      simp only [exceptBind_ok, pure, Except.pure] at h
                      have hft2 : ft2 = pySet (.obj (pySet.go TEMPLATE_ID newv kvs))
                          SUB_TEMPLATES (.list subs2) := by
                        cases h; rfl
                      subst hft2
                      simp only [entryIdsTop, jGetListD, leafId, pySet_obj_eq,
                        objGetJ_obj_eq, objGet_go_same,
                        objGet_go_ne TEMPLATE_ID newv SUB_TEMPLATES key_ne_sub_tid,
                        objGet_go_ne SUB_TEMPLATES (.list subs2) TEMPLATE_ID
                          (Ne.symm key_ne_sub_tid),
                        hS, hold, Option.getD_some, List.map_cons]
                      rw [mapME_sub_ids m subs subs2 hsub hmap,
                        mappedOf_of_fetch m old newv hf]
              | null => cases hsub
              | bool b => cases hsub
              | int n => cases hsub
              | str s => cases hsub
              | obj entries => cases hsub

theorem mapME_gen_ids (m : List (JVal × JVal)) :
    ∀ (items items2 : List JVal), items.all wfGeneral = true →
      mapME (rewriteGeneralTemplate m) items = .ok items2 →
      items2.flatMap entryIdsTop = (items.flatMap entryIdsTop).map (mappedOf m) := by
  intro items
  induction items with
  | nil => intro items2 _ h; rw [mapME_nil_ok _ _ h]; rfl
  | cons a as ih =>
      intro items2 hall h
      rw [List.all_cons, Bool.and_eq_true] at hall
      obtain ⟨b, bs, hb, hbs, hl⟩ := mapME_cons_ok _ _ _ _ h
      subst hl
      simp only [List.flatMap_cons, List.map_append]
      rw [rewriteGeneral_ids m a b hall.1 hb, ih bs hall.2 hbs]

theorem key_ne_uid_gt : UID_RANGE ≠ GENERAL_TEMPLATES := by decide

/-- The rewrite phase maps every collected reference id through the ID
Mapping, position by position. -/
theorem rewriteDevice_ids (m : List (JVal × JVal)) (dt dt2 : JVal)
    (hwf : wfDeviceRefs dt = true) (h : rewriteDeviceTemplate m dt = .ok dt2) :
    collectRefIds dt2 = (collectRefIds dt).map (mappedOf m) := by
  cases dt with
  | null => simp [wfDeviceRefs] at hwf
  | bool b => simp [wfDeviceRefs] at hwf
  | int n => simp [wfDeviceRefs] at hwf
  | str s => simp [wfDeviceRefs] at hwf
  | list items => simp [wfDeviceRefs] at hwf
  | obj kvs =>
      rw [wfDeviceRefs, Bool.and_eq_true] at hwf
      obtain ⟨hgt, huid⟩ := hwf
      obtain ⟨items, hG, hall⟩ : ∃ items,
          objGet kvs GENERAL_TEMPLATES = some (.list items) ∧
            items.all wfGeneral = true := by
        cases hx : objGet kvs GENERAL_TEMPLATES with
        | none => rw [hx] at hgt; cases hgt
        | some v =>
            cases v with
            | list items => rw [hx] at hgt; exact ⟨items, rfl, hgt⟩
            | null => rw [hx] at hgt; cases hgt
            | bool b => rw [hx] at hgt; cases hgt
            | int n => rw [hx] at hgt; cases hgt
            | str s => rw [hx] at hgt; cases hgt
            | obj es => rw [hx] at hgt; cases hgt
      unfold rewriteDeviceTemplate at h
      rw [pyGetItemS_of_objGet kvs GENERAL_TEMPLATES (.list items) hG] at h
      simp only [exceptBind_ok, pyIterE] at h
      cases hmap : mapME (rewriteGeneralTemplate m) items with
      | error e => rw [hmap] at h; simp at h
      | ok items2 =>
          rw [hmap] at h
          simp only [exceptBind_ok, pySet_obj_eq] at h
          rw [pyDictGet_obj] at h
          simp only [exceptBind_ok] at h
          rw [objGet_go_ne GENERAL_TEMPLATES (.list items2) UID_RANGE key_ne_uid_gt] at h
          cases hU : objGet kvs UID_RANGE with
          | none =>
              rw [hU] at h
              simp only [pure, Except.pure] at h
              have hdt2 : dt2 = .obj (pySet.go GENERAL_TEMPLATES (.list items2) kvs) := by
                cases h; rfl
              subst hdt2
              simp only [collectRefIds, jGetListD, objGetJ_obj_eq,
                objGet_go_same,
                objGet_go_ne GENERAL_TEMPLATES (.list items2) UID_RANGE key_ne_uid_gt,
                hU, hG, Option.getD_some, List.map_append]
              rw [mapME_gen_ids m items items2 hall hmap]
              simp
          | some inner =>
              rw [hU] at h
              rw [hU] at huid
              cases inner with
              | list ur =>
                  simp only [pyIterE, exceptBind_ok] at h
                  cases hmap2 : mapME (rewriteLeafTemplate m) ur with
                  | error e => rw [hmap2] at h; simp at h
                  | ok ur2 =>
                      rw [hmap2] at h
                      simp only [exceptBind_ok, pure, Except.pure, pySet_obj_eq] at h
                      have hdt2 : dt2 = .obj (pySet.go UID_RANGE (.list ur2)
                          (pySet.go GENERAL_TEMPLATES (.list items2) kvs)) := by
                        cases h; rfl
                      subst hdt2
                      simp only [collectRefIds, jGetListD, objGetJ_obj_eq,
                        objGet_go_same,
                        objGet_go_ne UID_RANGE (.list ur2) GENERAL_TEMPLATES
                          (Ne.symm key_ne_uid_gt),
                        objGet_go_ne GENERAL_TEMPLATES (.list items2) UID_RANGE
                          key_ne_uid_gt,
                        hU, hG, Option.getD_some, List.map_append]
                      rw [mapME_gen_ids m items items2 hall hmap,
                        mapME_leaf_ids m ur ur2 hmap2]
                      simp
              | null => cases huid
              | bool b => cases huid
              | int n => cases huid
              | str s => cases huid
              | obj es => cases huid

/-- A device template with one reference whose id `a` is mapped to itself
(the mapping covers every referenced id, as the claim assumes). -/
def c1Dt : JVal := .obj [(GENERAL_TEMPLATES, .list [.obj [(TEMPLATE_ID, .str "a")]])]

/-- The identity-on-`a` ID Mapping. -/
def c1IdMap : List (JVal × JVal) := [(.str "a", .str "a")]

/-- C1 counterexample: with every referenced id a key of the mapping (as
the claim assumes), the rewrite can still leave an original pre-mapping id
in the structure — map `a` to `a` and the rewritten template still
contains the original id `a`, refuting the claim's "no original ID
remains" conjunct.  (Every templateId still equals id_map[originalId];
only the disjointness of old and new ids fails.) -/
theorem c1_counterexample :
    wfDeviceRefs c1Dt = true ∧
    coveredB c1IdMap c1Dt = true ∧
    rewriteDeviceTemplate c1IdMap c1Dt = .ok c1Dt ∧
    JVal.str "a" ∈ collectRefIds c1Dt :=
  ⟨by decide, by decide, rfl, by decide⟩

/-- C1 (amended): for a well-formed device template whose referenced ids
are all keys of the ID Mapping, and whose mapping additionally sends every
referenced id to an id outside the referenced original ids (fresh server
ids), the rewrite maps every `templateId` at every nesting level —
top-level generalTemplates, nested and doubly-nested subTemplates, and
featureTemplateUidRange — to id_map[originalId] position by position, and
no original pre-mapping id remains anywhere in the rewritten structure. -/
theorem c1_reference_rewrite_amended :
    ∀ (m : List (JVal × JVal)) (dt dt2 : JVal),
      wfDeviceRefs dt = true →
      coveredB m dt = true →
      freshB m dt = true →
      rewriteDeviceTemplate m dt = .ok dt2 →
      collectRefIds dt2 = (collectRefIds dt).map (mappedOf m) ∧
      ∀ v ∈ collectRefIds dt2, v ∉ collectRefIds dt := by
  intro m dt dt2 hwf hcov hfresh hrw
  have h1 := rewriteDevice_ids m dt dt2 hwf hrw
  refine ⟨h1, ?_⟩
  intro v hv hvin
  rw [h1] at hv
  obtain ⟨w, hw, hwv⟩ := List.mem_map.mp hv
  rw [freshB, List.all_eq_true] at hfresh
  have h3 := hfresh w hw
  rw [List.all_eq_true] at h3
  have h2 := h3 v hvin
  simp only [Bool.not_eq_true'] at h2
  rw [hwv] at h2
  simp at h2

/-- A three-level device template for the C1 witness. -/
def c1WitnessDt : JVal :=
  .obj [(TEMPLATE_NAME, .str "t"),
        (GENERAL_TEMPLATES, .list [
          .obj [(TEMPLATE_ID, .str "f1"),
                (SUB_TEMPLATES, .list [
                  .obj [(TEMPLATE_ID, .str "f2"),
                        (SUB_TEMPLATES, .list [.obj [(TEMPLATE_ID, .str "f3")]])]])]]),
        (UID_RANGE, .list [.obj [(TEMPLATE_ID, .str "f4")]])]

/-- A fresh ID Mapping for the C1 witness. -/
def c1WitnessMap : List (JVal × JVal) :=
  [(.str "f1", .str "n1"), (.str "f2", .str "n2"),
   (.str "f3", .str "n3"), (.str "f4", .str "n4")]

/-- The rewritten form of `c1WitnessDt` under `c1WitnessMap`. -/
def c1WitnessOut : JVal :=
  .obj [(TEMPLATE_NAME, .str "t"),
        (GENERAL_TEMPLATES, .list [
          .obj [(TEMPLATE_ID, .str "n1"),
                (SUB_TEMPLATES, .list [
                  .obj [(TEMPLATE_ID, .str "n2"),
                        (SUB_TEMPLATES, .list [.obj [(TEMPLATE_ID, .str "n3")]])]])]]),
        (UID_RANGE, .list [.obj [(TEMPLATE_ID, .str "n4")]])]

/-- C1 witness: the amended theorem applied at the three-level example. -/
theorem c1_reference_rewrite_amended_witness :
    collectRefIds c1WitnessOut = (collectRefIds c1WitnessDt).map (mappedOf c1WitnessMap) :=
  (c1_reference_rewrite_amended c1WitnessMap c1WitnessDt c1WitnessOut
    (by decide) (by decide) (by decide) rfl).1

/-! ## Claim C2: idempotence of the Provisioning Engine

The engine only ever appends objects to the target (`ServerLe`), and every
create is guarded by a name-based existence check.  The development below
shows that a second run against the state a successful run produced finds
every feature template, policy and device template by name and therefore
performs no POST at all, returning the server unchanged.  The single
well-formedness assumption on the initial target is that its policies
carry truthy ids (`ServerOk`) — vManage policy ids are UUID strings —
since `_check_policy` reports a found policy through the truthiness of its
id. -/

/-- The target only ever grows: each object list of `t` extends that of
`s`. -/
def ServerLe (s t : Server) : Prop :=
  (∃ u, t.features = s.features ++ u) ∧
  (∃ u, t.policies = s.policies ++ u) ∧
  (∃ u, t.devices = s.devices ++ u)

theorem serverLe_refl (s : Server) : ServerLe s s :=
  ⟨⟨[], by simp⟩, ⟨[], by simp⟩, ⟨[], by simp⟩⟩

theorem serverLe_trans {a b c : Server} (h1 : ServerLe a b) (h2 : ServerLe b c) :
    ServerLe a c := by
  obtain ⟨⟨u1, hf1⟩, ⟨u2, hp1⟩, ⟨u3, hd1⟩⟩ := h1
  obtain ⟨⟨v1, hf2⟩, ⟨v2, hp2⟩, ⟨v3, hd2⟩⟩ := h2
  exact ⟨⟨u1 ++ v1, by rw [hf2, hf1, List.append_assoc]⟩,
         ⟨u2 ++ v2, by rw [hp2, hp1, List.append_assoc]⟩,
         ⟨u3 ++ v3, by rw [hd2, hd1, List.append_assoc]⟩⟩

/-- Every policy on the target carries a truthy id. -/
def ServerOk (s : Server) : Prop := ∀ p ∈ s.policies, truthy p.policyId = true

/-- A feature template of this name exists on the target. -/
def FeatNamed (s : Server) (n : JVal) : Prop := ∃ f ∈ s.features, f.templateName = n

/-- A policy of this name exists on the target. -/
def PolNamed (s : Server) (n : JVal) : Prop := ∃ p ∈ s.policies, p.policyName = n

/-- A device template of this name exists on the target. -/
def DevNamed (s : Server) (n : JVal) : Prop := ∃ d ∈ s.devices, d.templateName = n

theorem featNamed_mono {s t : Server} (h : ServerLe s t) {n : JVal}
    (hn : FeatNamed s n) : FeatNamed t n := by
  obtain ⟨f, hf, hfn⟩ := hn
  obtain ⟨⟨u, hu⟩, _, _⟩ := h
  exact ⟨f, by rw [hu]; exact List.mem_append_left u hf, hfn⟩

theorem polNamed_mono {s t : Server} (h : ServerLe s t) {n : JVal}
    (hn : PolNamed s n) : PolNamed t n := by
  obtain ⟨p, hp, hpn⟩ := hn
  obtain ⟨_, ⟨u, hu⟩, _⟩ := h
  exact ⟨p, by rw [hu]; exact List.mem_append_left u hp, hpn⟩

theorem devNamed_mono {s t : Server} (h : ServerLe s t) {n : JVal}
    (hn : DevNamed s n) : DevNamed t n := by
  obtain ⟨d, hd, hdn⟩ := hn
  obtain ⟨_, _, ⟨u, hu⟩⟩ := h
  exact ⟨d, by rw [hu]; exact List.mem_append_left u hd, hdn⟩

theorem freshId_truthy (s : Server) : truthy (freshId s) = true := by
  simp only [freshId, truthy, Bool.not_eq_true']
  rw [Bool.eq_false_iff]
  intro hemp
  rw [String.isEmpty_iff] at hemp
  have h2 : ("srv-" ++ toString s.nextId).data = [] := by rw [hemp]
  simp [String.data_append] at h2

/-- Membership of a key in the ID Mapping. -/
def idMem (m : List (JVal × JVal)) (k : JVal) : Bool :=
  (m.find? (fun kv => kv.1 == k)).isSome

theorem jbeq_of_ne {a b : JVal} (h : ¬ a = b) : (a == b) = false := by
  rw [Bool.eq_false_iff]
  intro hx
  exact h ((JVal.beq_iff a b).mp hx)

theorem idMem_set (m : List (JVal × JVal)) (k v k2 : JVal) :
    idMem (idSet m k v) k2 = ((k2 == k) || idMem m k2) := by
  induction m with
  | nil =>
      by_cases h : k2 = k
      · subst h; simp [idSet, idMem, List.find?]
      · have hne : (k == k2) = false := jbeq_of_ne (fun he => h he.symm)
        have hne2 : (k2 == k) = false := jbeq_of_ne h
        simp [idSet, idMem, List.find?, hne, hne2]
  | cons kv rest ih =>
      simp only [idSet]
      by_cases h : kv.1 = k
      · have hb : (kv.1 == k) = true := (JVal.beq_iff kv.1 k).mpr h
        rw [hb, if_pos rfl]
        by_cases h2 : k2 = k
        · subst h2
          have hb2 : (kv.1 == k2) = true := hb
          simp [idMem, List.find?, hb2]
        · have hne : (k == k2) = false := jbeq_of_ne (fun he => h2 he.symm)
          have hne2 : (k2 == k) = false := jbeq_of_ne h2
          have hkv : (kv.1 == k2) = false := by rw [h]; exact hne
          simp [idMem, List.find?, hne, hne2, hkv]
      · have hb : (kv.1 == k) = false := jbeq_of_ne h
        rw [hb, if_neg (by simp)]
        by_cases h3 : kv.1 = k2
        · have hkv : (kv.1 == k2) = true := (JVal.beq_iff kv.1 k2).mpr h3
          simp [idMem, List.find?, hkv]
        · have hkv : (kv.1 == k2) = false := jbeq_of_ne h3
          simp only [idMem, List.find?, hkv] at ih ⊢
          exact ih

theorem apiGetData_list (s : Server) (url : String) (l : List JVal)
    (hraw : serverGetRaw s url = ⟨"GET", 200, some (.obj [(DATA, .list l)])⟩) :
    ∃ d, apiGetData s url = .ok d ∧ pyIterE d = .ok l := by
  unfold apiGetData
  rw [hraw]
  cases l with
  | nil => exact ⟨.obj [], rfl, rfl⟩
  | cons a as => exact ⟨.list (a :: as), rfl, rfl⟩

theorem serverGetRaw_features (s : Server) :
    serverGetRaw s FEATURE_PATH =
      ⟨"GET", 200, some (.obj [(DATA, .list (s.features.map featJVal))])⟩ := rfl

theorem serverGetRaw_policies (s : Server) :
    serverGetRaw s VEDGE_POLICY_PATH =
      ⟨"GET", 200, some (.obj [(DATA, .list (s.policies.map polJVal))])⟩ := rfl

theorem serverGetRaw_devices (s : Server) :
    serverGetRaw s DEVICE_PATH =
      ⟨"GET", 200, some (.obj [(DATA, .list (s.devices.map devJVal))])⟩ := rfl

theorem scanPolicies_eq (n : JVal) :
    ∀ ps : List SPolicy,
      scanPolicies (ps.map polJVal) n =
        .ok (match ps.find? (fun p => p.policyName == n) with
             | some p => p.policyId
             | none => .bool false) := by
  intro ps
  induction ps with
  | nil => rfl
  | cons p rest ih =>
      simp only [List.map_cons, scanPolicies, List.find?]
      have hname : pyGetItemS (polJVal p) POLICY_NAME = .ok p.policyName := rfl
      rw [hname]
      simp only [exceptBind_ok]
      by_cases h : (p.policyName == n) = true
      · rw [h]; rfl
      · rw [Bool.not_eq_true] at h
        rw [h]
        simpa using ih

theorem check_policy_eq (s : Server) (n : JVal) :
    check_policy s n =
      .ok (match s.policies.find? (fun p => p.policyName == n) with
           | some p => p.policyId
           | none => .bool false) := by
  unfold check_policy
  obtain ⟨d, hd, hiter⟩ :=
    apiGetData_list s VEDGE_POLICY_PATH (s.policies.map polJVal) (serverGetRaw_policies s)
  rw [hd]
  simp only [exceptBind_ok]
  rw [hiter]
  simp only [exceptBind_ok]
  exact scanPolicies_eq n s.policies

theorem check_policy_found (s : Server) (n : JVal) (hok : ServerOk s)
    (hnamed : PolNamed s n) :
    ∃ v, check_policy s n = .ok v ∧ truthy v = true := by
  rw [check_policy_eq]
  obtain ⟨p, hp, hpn⟩ := hnamed
  have hfind : ∃ q, s.policies.find? (fun p => p.policyName == n) = some q := by
    have : (s.policies.find? (fun p => p.policyName == n)).isSome = true := by
      rw [List.find?_isSome]
      exact ⟨p, hp, (JVal.beq_iff _ _).mpr hpn⟩
    cases hq : s.policies.find? (fun p => p.policyName == n) with
    | none => rw [hq] at this; cases this
    | some q => exact ⟨q, rfl⟩
  obtain ⟨q, hq⟩ := hfind
  rw [hq]
  exact ⟨q.policyId, rfl, hok q (List.mem_of_find?_eq_some hq)⟩

theorem check_policy_truthy_named (s : Server) (n v : JVal)
    (h : check_policy s n = .ok v) (htr : truthy v = true) : PolNamed s n := by
  rw [check_policy_eq] at h
  cases hq : s.policies.find? (fun p => p.policyName == n) with
  | none =>
      rw [hq] at h
      cases h
      cases htr
  | some q =>
      rw [hq] at h
      cases h
      have hpr : (q.policyName == n) = true := by
        have h2 := List.find?_some hq
        exact h2
      exact ⟨q, List.mem_of_find?_eq_some hq, (JVal.beq_iff _ _).mp hpr⟩

theorem mapME_featPairs :
    ∀ l : List SFeature,
      mapME (fun k => do
        let n ← pyGetItemS k TEMPLATE_NAME
        let i ← pyGetItemS k TEMPLATE_ID
        pure (n, i)) (l.map featJVal) =
      .ok (l.map fun f => (f.templateName, f.templateId)) := by
  intro l
  induction l with
  | nil => rfl
  | cons f rest ih =>
      simp only [List.map_cons, mapME]
      have h1 : pyGetItemS (featJVal f) TEMPLATE_NAME = .ok f.templateName := rfl
      have h2 : pyGetItemS (featJVal f) TEMPLATE_ID = .ok f.templateId := rfl
      rw [h1]
      simp only [exceptBind_ok]
      rw [h2]
      simp only [exceptBind_ok]
      rw [ih]
      rfl

theorem featurePairs_eq (s : Server) :
    featurePairs s = .ok (s.features.map fun f => (f.templateName, f.templateId)) := by
  unfold featurePairs
  obtain ⟨d, hd, hiter⟩ :=
    apiGetData_list s FEATURE_PATH (s.features.map featJVal) (serverGetRaw_features s)
  rw [hd]
  simp only [exceptBind_ok]
  rw [hiter]
  simp only [exceptBind_ok]
  exact mapME_featPairs s.features

theorem pairsMem_iff (l : List SFeature) (n : JVal) :
    pairsMem (l.map fun f => (f.templateName, f.templateId)) n = true ↔
      ∃ f ∈ l, f.templateName = n := by
  simp [pairsMem, List.any_map, List.any_eq_true, JVal.beq_iff, Function.comp]

theorem scanDevices_eq (proj : JVal) (name : JVal)
    (hname : pyGetItemS proj TEMPLATE_NAME = .ok name) :
    ∀ ds : List SDevice,
      scanDevices proj (ds.map devJVal) =
        .ok (ds.any (fun d => d.templateName == name)) := by
  intro ds
  induction ds with
  | nil => rfl
  | cons d rest ih =>
      simp only [List.map_cons, scanDevices, List.any_cons]
      have h1 : pyGetItemS (devJVal d) TEMPLATE_NAME = .ok d.templateName := rfl
      rw [h1]
      simp only [exceptBind_ok]
      rw [hname]
      simp only [exceptBind_ok]
      by_cases h : (d.templateName == name) = true
      · rw [h]; simp
      · rw [Bool.not_eq_true] at h
        rw [h]
        simpa using ih

theorem apiPostChecked_feature (s : Server) (payload : JVal) :
    apiPostChecked s FEATURE_PATH payload =
      .ok ({ s with
              features := s.features ++
                [⟨objGetJ payload TEMPLATE_NAME, freshId s, payload⟩],
              nextId := s.nextId + 1 },
           ⟨true, 200, .val (.str ""), .str "Success", .obj [(TEMPLATE_ID, freshId s)],
            ⟨"POST", 200, some (.obj [(TEMPLATE_ID, freshId s)])⟩⟩) := rfl

theorem apiPostChecked_policy (s : Server) (payload : JVal) :
    apiPostChecked s VEDGE_POLICY_PATH payload =
      .ok ({ s with
              policies := s.policies ++
                [⟨objGetJ payload POLICY_NAME, freshId s, payload⟩],
              nextId := s.nextId + 1 },
           ⟨true, 200, .val (.str ""), .str "Success", .obj [],
            ⟨"POST", 200, some (.obj [])⟩⟩) := rfl

theorem apiPostChecked_device (s : Server) (payload : JVal) :
    apiPostChecked s DEVICE_FEATURE_PATH payload =
      .ok ({ s with devices := s.devices ++ [⟨objGetJ payload TEMPLATE_NAME, payload⟩] },
           ⟨true, 200, .val (.str ""), .str "Success", .obj [],
            ⟨"POST", 200, some (.obj [])⟩⟩) := rfl

/-- The pure prefix of one feature iteration: the name under which the
bundle entry would be created. -/
def featureNameOf (feature_data template_id : JVal) : Except PyExc JVal := do
  let entry ← pyGetItemV feature_data template_id
  let fd ← pyProject entry FEATURE_KEYS
  pyGetItemS fd TEMPLATE_NAME

theorem processFeature_run (bundle : JVal) (s : Server) (m : List (JVal × JVal))
    (key : JVal) (s2 : Server) (m2 : List (JVal × JVal)) (hok : ServerOk s)
    (h : processFeature bundle (s, m) key = .ok (s2, m2)) :
    ServerLe s s2 ∧ ServerOk s2 ∧ (∃ v, m2 = idSet m key v) ∧
      ∃ name, featureNameOf bundle key = .ok name ∧ FeatNamed s2 name := by
  unfold processFeature at h
  cases hentry : pyGetItemV bundle key with
  | error e => rw [hentry] at h; simp at h
  | ok entry =>
      rw [hentry] at h
      simp only [exceptBind_ok] at h
      cases hfd : pyProject entry FEATURE_KEYS with
      | error e => rw [hfd] at h; simp at h
      | ok fd =>
          rw [hfd] at h
          simp only [exceptBind_ok] at h
          rw [featurePairs_eq s] at h
          simp only [exceptBind_ok] at h
          cases hname : pyGetItemS fd TEMPLATE_NAME with
          | error e => rw [hname] at h; simp at h
          | ok name =>
              rw [hname] at h
              simp only [exceptBind_ok] at h
              have hpure : featureNameOf bundle key = .ok name := by
                unfold featureNameOf
                rw [hentry]
                simp only [exceptBind_ok]
                rw [hfd]
                simp only [exceptBind_ok]
                exact hname
              by_cases hmem :
                  pairsMem (s.features.map fun f => (f.templateName, f.templateId))
                    name = true
              · rw [hmem, if_pos rfl] at h
                simp only [pure, Except.pure, Except.ok.injEq, Prod.mk.injEq] at h
                obtain ⟨hs2, hm2⟩ := h
                subst hs2
                refine ⟨serverLe_refl s, hok, ⟨_, hm2.symm⟩, name, hpure, ?_⟩
                obtain ⟨f, hf, hfn⟩ := (pairsMem_iff s.features name).mp hmem
                exact ⟨f, hf, hfn⟩
              · rw [Bool.not_eq_true] at hmem
                rw [hmem] at h
                simp only [Bool.false_eq_true, if_false] at h
                rw [apiPostChecked_feature s fd] at h
                simp only [exceptBind_ok] at h
                have hnew : pyGetItemS
                    (JVal.obj [(TEMPLATE_ID, freshId s)]) TEMPLATE_ID =
                      .ok (freshId s) := rfl
                rw [hnew] at h
                simp only [exceptBind_ok, pure, Except.pure, Except.ok.injEq,
                  Prod.mk.injEq] at h
                obtain ⟨hs2, hm2⟩ := h
                subst hs2
                refine ⟨⟨⟨_, rfl⟩, ⟨[], by simp⟩, ⟨[], by simp⟩⟩, hok, ⟨_, hm2.symm⟩,
                  name, hpure, ?_⟩
                obtain ⟨kvs, hkvs⟩ := pyGetItemS_ok_obj fd TEMPLATE_NAME name hname
                subst hkvs
                have hng : objGetJ (.obj kvs) TEMPLATE_NAME = name := by
                  rw [objGetJ_obj_eq, pyGetItemS_obj_some kvs TEMPLATE_NAME name hname]
                  rfl
                exact ⟨⟨name, freshId s, .obj kvs⟩, by simp [hng], rfl⟩

theorem processFeature_rerun (bundle key name : JVal) (t : Server)
    (mB : List (JVal × JVal)) (hpure : featureNameOf bundle key = .ok name)
    (hnamed : FeatNamed t name) :
    ∃ v, processFeature bundle (t, mB) key = .ok (t, idSet mB key v) := by
  unfold featureNameOf at hpure
  cases hentry : pyGetItemV bundle key with
  | error e => rw [hentry] at hpure; simp at hpure
  | ok entry =>
      rw [hentry] at hpure
      simp only [exceptBind_ok] at hpure
      cases hfd : pyProject entry FEATURE_KEYS with
      | error e => rw [hfd] at hpure; simp at hpure
      | ok fd =>
          rw [hfd] at hpure
          simp only [exceptBind_ok] at hpure
          unfold processFeature
          rw [hentry]
          simp only [exceptBind_ok]
          rw [hfd]
          simp only [exceptBind_ok]
          rw [featurePairs_eq t]
          simp only [exceptBind_ok]
          rw [hpure]
          simp only [exceptBind_ok]
          have hmem : pairsMem
              (t.features.map fun f => (f.templateName, f.templateId)) name = true :=
            (pairsMem_iff t.features name).mpr hnamed
          rw [hmem, if_pos rfl]
          exact ⟨_, rfl⟩

theorem processFeatures_run (bundle : JVal) :
    ∀ (keys : List JVal) (s : Server) (m : List (JVal × JVal)) (s2 : Server)
      (m2 : List (JVal × JVal)), ServerOk s →
      List.foldlM (processFeature bundle) (s, m) keys = .ok (s2, m2) →
      ServerLe s s2 ∧ ServerOk s2 ∧
      (∀ k, idMem m2 k = (idMem m k || keys.any (fun key => k == key))) ∧
      (∀ t, ServerLe s2 t → ∀ mB, ∃ mB2,
        List.foldlM (processFeature bundle) (t, mB) keys = .ok (t, mB2) ∧
        ∀ k, idMem mB2 k = (idMem mB k || keys.any (fun key => k == key))) := by
  intro keys
  induction keys with
  | nil =>
      intro s m s2 m2 hok h
      simp only [List.foldlM, pure, Except.pure, Except.ok.injEq, Prod.mk.injEq] at h
      obtain ⟨hs2, hm2⟩ := h
      subst hs2; subst hm2
      exact ⟨serverLe_refl s, hok, fun k => by simp,
        fun t _ mB => ⟨mB, rfl, fun k => by simp⟩⟩
  | cons a rest ih =>
      intro s m s2 m2 hok h
      simp only [List.foldlM] at h
      cases hstep : processFeature bundle (s, m) a with
      | error e => rw [hstep] at h; simp at h
      | ok acc1 =>
          rw [hstep] at h
          simp only [exceptBind_ok] at h
          obtain ⟨s', m'⟩ := acc1
          obtain ⟨hle1, hok1, ⟨v, hm'⟩, name, hpure, hnamed⟩ :=
            processFeature_run bundle s m a s' m' hok hstep
          obtain ⟨hle2, hok2, hmem2, hrerun⟩ := ih s' m' s2 m2 hok1 h
          subst hm'
          refine ⟨serverLe_trans hle1 hle2, hok2, ?_, ?_⟩
          · intro k
            rw [hmem2 k, idMem_set, List.any_cons]
            cases idMem m k <;> cases (k == a) <;>
              cases rest.any (fun key => k == key) <;> rfl
          · intro t hlet mB
            obtain ⟨v2, hstep2⟩ := processFeature_rerun bundle a name t mB hpure
              (featNamed_mono (serverLe_trans hle2 hlet) hnamed)
            obtain ⟨mB2, hfold2, hmemB⟩ := hrerun t hlet (idSet mB a v2)
            refine ⟨mB2, ?_, ?_⟩
            · simp only [List.foldlM]
              rw [hstep2]
              simp only [exceptBind_ok]
              exact hfold2
            · intro k
              rw [hmemB k, idMem_set, List.any_cons]
              cases idMem mB k <;> cases (k == a) <;>
                cases rest.any (fun key => k == key) <;> rfl

theorem idMem_eq_isSome (m : List (JVal × JVal)) (k : JVal) :
    idMem m k = (idLookup m k).isSome := by
  unfold idMem idLookup
  cases hf : List.find? (fun kv => kv.1 == k) m <;> simp [hf]

theorem idLookup_transfer (m mt : List (JVal × JVal))
    (hsub : ∀ k, idMem m k = true → idMem mt k = true) (k v : JVal)
    (h : idLookup m k = some v) : ∃ y, idLookup mt k = some y := by
  have hm : idMem m k = true := by rw [idMem_eq_isSome, h]; rfl
  have hmt := hsub k hm
  rw [idMem_eq_isSome] at hmt
  cases hl : idLookup mt k with
  | none => rw [hl] at hmt; cases hmt
  | some y => exact ⟨y, rfl⟩

theorem idFetch_transfer (m mt : List (JVal × JVal))
    (hsub : ∀ k, idMem m k = true → idMem mt k = true) (k x : JVal)
    (h : idFetch m k = .ok x) : ∃ y, idFetch mt k = .ok y := by
  unfold idFetch at h ⊢
  cases k with
  | list l => cases h
  | obj es => cases h
  | null =>
      cases hl : idLookup m JVal.null with
      | none => rw [hl] at h; cases h
      | some v =>
          obtain ⟨y, hy⟩ := idLookup_transfer m mt hsub JVal.null v hl
          rw [hy]
          exact ⟨y, rfl⟩
  | bool b =>
      cases hl : idLookup m (JVal.bool b) with
      | none => rw [hl] at h; cases h
      | some v =>
          obtain ⟨y, hy⟩ := idLookup_transfer m mt hsub (JVal.bool b) v hl
          rw [hy]
          exact ⟨y, rfl⟩
  | int n =>
      cases hl : idLookup m (JVal.int n) with
      | none => rw [hl] at h; cases h
      | some v =>
          obtain ⟨y, hy⟩ := idLookup_transfer m mt hsub (JVal.int n) v hl
          rw [hy]
          exact ⟨y, rfl⟩
  | str s =>
      cases hl : idLookup m (JVal.str s) with
      | none => rw [hl] at h; cases h
      | some v =>
          obtain ⟨y, hy⟩ := idLookup_transfer m mt hsub (JVal.str s) v hl
          rw [hy]
          exact ⟨y, rfl⟩

theorem pyDictGet_ok_obj (t : JVal) (k : String) (o : Option JVal)
    (h : pyDictGet t k = .ok o) : ∃ kvs, t = .obj kvs := by
  cases t with
  | obj kvs => exact ⟨kvs, rfl⟩
  | null => cases h
  | bool b => cases h
  | int n => cases h
  | str s => cases h
  | list items => cases h

theorem mapME_transfer (f g : JVal → Except PyExc JVal)
    (hfg : ∀ t r, f t = .ok r → ∃ r', g t = .ok r') :
    ∀ (l l2 : List JVal), mapME f l = .ok l2 → ∃ l2', mapME g l = .ok l2' := by
  intro l
  induction l with
  | nil => intro l2 _; exact ⟨[], rfl⟩
  | cons a as ih =>
      intro l2 h
      obtain ⟨b, bs, hb, hbs, _⟩ := mapME_cons_ok f a as l2 h
      obtain ⟨b', hb'⟩ := hfg a b hb
      obtain ⟨bs', hbs'⟩ := ih bs hbs
      refine ⟨b' :: bs', ?_⟩
      rw [mapME, hb']
      simp only [exceptBind_ok]
      rw [hbs']
      rfl

theorem rewriteLeaf_transfer (m mt : List (JVal × JVal))
    (hsub : ∀ k, idMem m k = true → idMem mt k = true) (t r : JVal)
    (h : rewriteLeafTemplate m t = .ok r) :
    ∃ r', rewriteLeafTemplate mt t = .ok r' := by
  unfold rewriteLeafTemplate at h ⊢
  cases hg : pyGetItemS t TEMPLATE_ID with
  | error e => rw [hg] at h; simp at h
  | ok old =>
      rw [hg] at h
      simp only [exceptBind_ok] at h ⊢
      cases hf : idFetch m old with
      | error e => rw [hf] at h; simp at h
      | ok x =>
          obtain ⟨y, hy⟩ := idFetch_transfer m mt hsub old x hf
          rw [hy]
          exact ⟨_, rfl⟩

theorem rewriteSub_transfer (m mt : List (JVal × JVal))
    (hsub : ∀ k, idMem m k = true → idMem mt k = true) (t r : JVal)
    (h : rewriteSubTemplate m t = .ok r) :
    ∃ r', rewriteSubTemplate mt t = .ok r' := by
  unfold rewriteSubTemplate at h ⊢
  cases hd : pyDictGet t SUB_TEMPLATES with
  | error e => rw [hd] at h; simp at h
  | ok o =>
      obtain ⟨kvs, hkvs⟩ := pyDictGet_ok_obj t SUB_TEMPLATES o hd
      subst hkvs
      rw [hd] at h
      simp only [exceptBind_ok] at h ⊢
      cases o with
      | none =>
          simp only [pure, Except.pure, exceptBind_ok] at h ⊢
          cases hg : pyGetItemS (.obj kvs) TEMPLATE_ID with
          | error e => rw [hg] at h; simp at h
          | ok old =>
              rw [hg] at h
              simp only [exceptBind_ok] at h ⊢
              cases hf : idFetch m old with
              | error e => rw [hf] at h; simp at h
              | ok x =>
                  obtain ⟨y, hy⟩ := idFetch_transfer m mt hsub old x hf
                  rw [hy]
                  exact ⟨_, rfl⟩
      | some inner =>
          simp only [exceptBind_ok] at h ⊢
          cases hit : pyIterE inner with
          | error e => rw [hit] at h; simp at h
          | ok items =>
              rw [hit] at h
              simp only [exceptBind_ok] at h ⊢
              cases hm2 : mapME (rewriteLeafTemplate m) items with
              | error e => rw [hm2] at h; simp at h
              | ok items2 =>
                  rw [hm2] at h
                  simp only [exceptBind_ok, pure, Except.pure, pySet_obj_eq] at h
                  obtain ⟨items2t, hm2t⟩ := mapME_transfer (rewriteLeafTemplate m)
                    (rewriteLeafTemplate mt) (rewriteLeaf_transfer m mt hsub)
                    items items2 hm2
                  rw [hm2t]
                  simp only [exceptBind_ok, pure, Except.pure, pySet_obj_eq]
                  cases hg : pyGetItemS
                      (.obj (pySet.go SUB_TEMPLATES (.list items2) kvs))
                      TEMPLATE_ID with
                  | error e => rw [hg] at h; simp at h
                  | ok old =>
                      rw [hg] at h
                      simp only [exceptBind_ok] at h
                      have hold : objGet kvs TEMPLATE_ID = some old := by
                        have h2 := pyGetItemS_obj_some _ TEMPLATE_ID old hg
                        rw [objGet_go_ne SUB_TEMPLATES (.list items2) TEMPLATE_ID
                          (Ne.symm key_ne_sub_tid)] at h2
                        exact h2
                      have hgt : pyGetItemS
                          (.obj (pySet.go SUB_TEMPLATES (.list items2t) kvs))
                          TEMPLATE_ID = .ok old := by
                        apply pyGetItemS_of_objGet
                        rw [objGet_go_ne SUB_TEMPLATES (.list items2t) TEMPLATE_ID
                          (Ne.symm key_ne_sub_tid)]
                        exact hold
                      rw [hgt]
                      simp only [exceptBind_ok]
                      cases hf : idFetch m old with
                      | error e => rw [hf] at h; simp at h
                      | ok x =>
                          obtain ⟨y, hy⟩ := idFetch_transfer m mt hsub old x hf
                          rw [hy]
                          exact ⟨_, rfl⟩

theorem rewriteGeneral_transfer (m mt : List (JVal × JVal))
    (hsub : ∀ k, idMem m k = true → idMem mt k = true) (t r : JVal)
    (h : rewriteGeneralTemplate m t = .ok r) :
    ∃ r', rewriteGeneralTemplate mt t = .ok r' := by
  unfold rewriteGeneralTemplate at h ⊢
  cases hg : pyGetItemS t TEMPLATE_ID with
  | error e => rw [hg] at h; simp at h
  | ok old =>
      rw [hg] at h
      simp only [exceptBind_ok] at h ⊢
      cases hf : idFetch m old with
      | error e => rw [hf] at h; simp at h
      | ok x =>
          rw [hf] at h
          simp only [exceptBind_ok] at h
          obtain ⟨y, hy⟩ := idFetch_transfer m mt hsub old x hf
          rw [hy]
          simp only [exceptBind_ok]
          obtain ⟨kvs, hkvs⟩ := pyGetItemS_ok_obj t TEMPLATE_ID old hg
          subst hkvs
          simp only [pySet_obj_eq] at h ⊢
          cases hd : pyDictGet (.obj (pySet.go TEMPLATE_ID x kvs)) SUB_TEMPLATES with
          | error e => rw [hd] at h; simp at h
          | ok o =>
              rw [hd] at h
              simp only [exceptBind_ok] at h
              have hdy : pyDictGet (.obj (pySet.go TEMPLATE_ID y kvs)) SUB_TEMPLATES =
                  .ok o := by
                rw [pyDictGet_obj] at hd ⊢
                rw [objGet_go_ne TEMPLATE_ID y SUB_TEMPLATES key_ne_sub_tid]
                rw [objGet_go_ne TEMPLATE_ID x SUB_TEMPLATES key_ne_sub_tid] at hd
                exact hd
              rw [hdy]
              simp only [exceptBind_ok]
              cases o with
              | none => exact ⟨_, rfl⟩
              | some subs =>
                  simp only [exceptBind_ok] at h ⊢
                  cases hit : pyIterE subs with
                  | error e => rw [hit] at h; simp at h
                  | ok items =>
                      rw [hit] at h
                      simp only [exceptBind_ok] at h ⊢
                      cases hm2 : mapME (rewriteSubTemplate m) items with
                      | error e => rw [hm2] at h; simp at h
                      | ok items2 =>
                          obtain ⟨items2t, hm2t⟩ := mapME_transfer
                            (rewriteSubTemplate m) (rewriteSubTemplate mt)
                            (rewriteSub_transfer m mt hsub) items items2 hm2
                          rw [hm2t]
                          exact ⟨_, rfl⟩

theorem rewriteDevice_transfer (m mt : List (JVal × JVal))
    (hsub : ∀ k, idMem m k = true → idMem mt k = true) (dt r : JVal)
    (h : rewriteDeviceTemplate m dt = .ok r) :
    ∃ r', rewriteDeviceTemplate mt dt = .ok r' := by
  unfold rewriteDeviceTemplate at h ⊢
  cases hg : pyGetItemS dt GENERAL_TEMPLATES with
  | error e => rw [hg] at h; simp at h
  | ok gts =>
      rw [hg] at h
      simp only [exceptBind_ok] at h ⊢
      cases hit : pyIterE gts with
      | error e => rw [hit] at h; simp at h
      | ok items =>
          rw [hit] at h
          simp only [exceptBind_ok] at h ⊢
          cases hm2 : mapME (rewriteGeneralTemplate m) items with
          | error e => rw [hm2] at h; simp at h
          | ok items2 =>
              rw [hm2] at h
              simp only [exceptBind_ok] at h
              obtain ⟨items2t, hm2t⟩ := mapME_transfer
                (rewriteGeneralTemplate m) (rewriteGeneralTemplate mt)
                (rewriteGeneral_transfer m mt hsub) items items2 hm2
              rw [hm2t]
              simp only [exceptBind_ok]
              obtain ⟨kvs, hkvs⟩ := pyGetItemS_ok_obj dt GENERAL_TEMPLATES gts hg
              subst hkvs
              simp only [pySet_obj_eq] at h ⊢
              cases hd : pyDictGet
                  (.obj (pySet.go GENERAL_TEMPLATES (.list items2) kvs))
                  UID_RANGE with
              | error e => rw [hd] at h; simp at h
              | ok o =>
                  rw [hd] at h
                  simp only [exceptBind_ok] at h
                  have hdy : pyDictGet
                      (.obj (pySet.go GENERAL_TEMPLATES (.list items2t) kvs))
                      UID_RANGE = .ok o := by
                    rw [pyDictGet_obj] at hd ⊢
                    rw [objGet_go_ne GENERAL_TEMPLATES (.list items2t) UID_RANGE
                      key_ne_uid_gt]
                    rw [objGet_go_ne GENERAL_TEMPLATES (.list items2) UID_RANGE
                      key_ne_uid_gt] at hd
                    exact hd
                  rw [hdy]
                  simp only [exceptBind_ok]
                  cases o with
                  | none => exact ⟨_, rfl⟩
                  | some ur =>
                      simp only [exceptBind_ok] at h ⊢
                      cases hit2 : pyIterE ur with
                      | error e => rw [hit2] at h; simp at h
                      | ok urItems =>
                          rw [hit2] at h
                          simp only [exceptBind_ok] at h ⊢
                          cases hm3 : mapME (rewriteLeafTemplate m) urItems with
                          | error e => rw [hm3] at h; simp at h
                          | ok ur2 =>
                              obtain ⟨ur2t, hm3t⟩ := mapME_transfer
                                (rewriteLeafTemplate m) (rewriteLeafTemplate mt)
                                (rewriteLeaf_transfer m mt hsub) urItems ur2 hm3
                              rw [hm3t]
                              exact ⟨_, rfl⟩

theorem rewriteDevice_shape (m : List (JVal × JVal)) (dt r : JVal)
    (h : rewriteDeviceTemplate m dt = .ok r) :
    ∃ kvs kvs2, dt = .obj kvs ∧ r = .obj kvs2 ∧
      ∀ k, k ≠ GENERAL_TEMPLATES → k ≠ UID_RANGE → objGet kvs2 k = objGet kvs k := by
  unfold rewriteDeviceTemplate at h
  cases hg : pyGetItemS dt GENERAL_TEMPLATES with
  | error e => rw [hg] at h; simp at h
  | ok gts =>
      rw [hg] at h
      simp only [exceptBind_ok] at h
      obtain ⟨kvs, hkvs⟩ := pyGetItemS_ok_obj dt GENERAL_TEMPLATES gts hg
      subst hkvs
      cases hit : pyIterE gts with
      | error e => rw [hit] at h; simp at h
      | ok items =>
          rw [hit] at h
          simp only [exceptBind_ok] at h
          cases hm2 : mapME (rewriteGeneralTemplate m) items with
          | error e => rw [hm2] at h; simp at h
          | ok items2 =>
              rw [hm2] at h
              simp only [exceptBind_ok, pySet_obj_eq] at h
              rw [pyDictGet_obj] at h
              simp only [exceptBind_ok] at h
              cases hU : objGet (pySet.go GENERAL_TEMPLATES (.list items2) kvs)
                  UID_RANGE with
              | none =>
                  rw [hU] at h
                  simp only [pure, Except.pure] at h
                  refine ⟨kvs, pySet.go GENERAL_TEMPLATES (.list items2) kvs, rfl,
                    by cases h; rfl, ?_⟩
                  intro k hk1 _
                  exact objGet_go_ne GENERAL_TEMPLATES (.list items2) k hk1 kvs
              | some ur =>
                  rw [hU] at h
                  simp only [exceptBind_ok] at h
                  cases hit2 : pyIterE ur with
                  | error e => rw [hit2] at h; simp at h
                  | ok urItems =>
                      rw [hit2] at h
                      simp only [exceptBind_ok] at h
                      cases hm3 : mapME (rewriteLeafTemplate m) urItems with
                      | error e => rw [hm3] at h; simp at h
                      | ok ur2 =>
                          rw [hm3] at h
                          simp only [exceptBind_ok, pure, Except.pure,
                            pySet_obj_eq] at h
                          refine ⟨kvs, pySet.go UID_RANGE (.list ur2)
                            (pySet.go GENERAL_TEMPLATES (.list items2) kvs), rfl,
                            by cases h; rfl, ?_⟩
                          intro k hk1 hk2
                          rw [objGet_go_ne UID_RANGE (.list ur2) k hk2,
                            objGet_go_ne GENERAL_TEMPLATES (.list items2) k hk1]

theorem objGet_filter (kvs : List (String × JVal)) (allow : List String) (k : String)
    (hk : allow.contains k = true) :
    objGet (kvs.filter (fun kv => allow.contains kv.1)) k = objGet kvs k := by
  induction kvs with
  | nil => rfl
  | cons kv rest ih =>
      rw [List.filter_cons]
      by_cases h : kv.1 = k
      · have hc : allow.contains kv.1 = true := by rw [h]; exact hk
        have hd : decide (kv.1 = k) = true := decide_eq_true h
        rw [if_pos hc]
        simp only [objGet, List.find?_cons, hd]
      · have hd : decide (kv.1 = k) = false := decide_eq_false h
        cases hc : allow.contains kv.1 with
        | true =>
            rw [if_pos rfl]
            simp only [objGet, List.find?_cons, hd] at ih ⊢
            exact ih
        | false =>
            rw [if_neg Bool.false_ne_true]
            simp only [objGet, List.find?_cons, hd]
            exact ih

/-- The pure prefix of the policy phase: the name under which the policy
would be found or created. -/
def policyNameOf (template_dict device_template : JVal) : Except PyExc JVal := do
  let nameV ← pyGetItemS device_template TEMPLATE_NAME
  let policy_data := (← pyDictGet template_dict (pyStr nameV ++ "_policy")).getD (.obj [])
  let policy_id ← pyGetItemS device_template POLICY_ID
  let _ ← pyMem policy_id policy_data
  let pd ← pyGetItemV policy_data policy_id
  pyGetItemS pd POLICY_NAME

theorem serverOk_append_policy (s : Server) (p : SPolicy) (hok : ServerOk s)
    (htr : truthy p.policyId = true) :
    ∀ q ∈ s.policies ++ [p], truthy q.policyId = true := by
  intro q hq
  rcases List.mem_append.mp hq with hq | hq
  · exact hok q hq
  · rw [List.mem_singleton] at hq
    subst hq
    exact htr

theorem polKeys_name : POLICY_KEYS.contains POLICY_NAME = true := rfl

theorem processPolicy_run (td dt ndt : JVal) (s : Server) (s3 : Server) (ndt2 : JVal)
    (hok : ServerOk s) (h : processPolicy td dt ndt s = .ok (s3, ndt2)) :
    ServerLe s s3 ∧ ServerOk s3 ∧ (∃ w, ndt2 = pySet ndt POLICY_ID w) ∧
      ∃ pn, policyNameOf td dt = .ok pn ∧ PolNamed s3 pn := by
  unfold processPolicy at h
  cases hnv : pyGetItemS dt TEMPLATE_NAME with
  | error e => rw [hnv] at h; simp at h
  | ok nameV =>
      rw [hnv] at h
      simp only [exceptBind_ok] at h
      cases hpd0 : pyDictGet td (pyStr nameV ++ "_policy") with
      | error e => rw [hpd0] at h; simp at h
      | ok o =>
          rw [hpd0] at h
          simp only [exceptBind_ok] at h
          cases hpid : pyGetItemS dt POLICY_ID with
          | error e => rw [hpid] at h; simp at h
          | ok policy_id =>
              rw [hpid] at h
              simp only [exceptBind_ok] at h
              cases hmem : pyMem policy_id (o.getD (.obj [])) with
              | error e => rw [hmem] at h; simp at h
              | ok b =>
                  rw [hmem] at h
                  simp only [exceptBind_ok] at h
                  cases hpdv : pyGetItemV (o.getD (.obj [])) policy_id with
                  | error e => rw [hpdv] at h; simp at h
                  | ok pd =>
                      rw [hpdv] at h
                      simp only [exceptBind_ok] at h
                      cases hpn : pyGetItemS pd POLICY_NAME with
                      | error e => rw [hpn] at h; simp at h
                      | ok pn =>
                          rw [hpn] at h
                          simp only [exceptBind_ok] at h
                          have hpure : policyNameOf td dt = .ok pn := by
                            unfold policyNameOf
                            rw [hnv]
                            simp only [exceptBind_ok]
                            rw [hpd0]
                            simp only [exceptBind_ok]
                            rw [hpid]
                            simp only [exceptBind_ok]
                            rw [hmem]
                            simp only [exceptBind_ok]
                            rw [hpdv]
                            simp only [exceptBind_ok]
                            exact hpn
                          rw [check_policy_eq s pn] at h
                          simp only [exceptBind_ok] at h
                          cases hfind : s.policies.find?
                              (fun p => p.policyName == pn) with
                          | some q =>
                              rw [hfind] at h
                              have htr : truthy q.policyId = true :=
                                hok q (List.mem_of_find?_eq_some hfind)
                              rw [htr, if_pos rfl] at h
                              simp only [pure, Except.pure, Except.ok.injEq,
                                Prod.mk.injEq] at h
                              obtain ⟨hs3, hndt2⟩ := h
                              subst hs3
                              refine ⟨serverLe_refl s, hok, ⟨_, hndt2.symm⟩,
                                pn, hpure, ?_⟩
                              have hb := List.find?_some hfind
                              exact ⟨q, List.mem_of_find?_eq_some hfind,
                                (JVal.beq_iff _ _).mp hb⟩
                          | none =>
                              rw [hfind] at h
                              simp only [truthy, Bool.false_eq_true, if_false] at h
                              cases hproj : pyProject pd POLICY_KEYS with
                              | error e => rw [hproj] at h; simp at h
                              | ok pd2 =>
                                  rw [hproj] at h
                                  simp only [exceptBind_ok] at h
                                  rw [apiPostChecked_policy s pd2] at h
                                  simp only [exceptBind_ok] at h
                                  obtain ⟨kvsPd, hkvsPd⟩ :=
                                    pyGetItemS_ok_obj pd POLICY_NAME pn hpn
                                  subst hkvsPd
                                  have hpd2 : pd2 = .obj (kvsPd.filter
                                      (fun kv => POLICY_KEYS.contains kv.1)) := by
                                    unfold pyProject at hproj
                                    cases hproj
                                    rfl
                                  subst hpd2
                                  have hpn2 : pyGetItemS (.obj (kvsPd.filter
                                      (fun kv => POLICY_KEYS.contains kv.1)))
                                      POLICY_NAME = .ok pn := by
                                    apply pyGetItemS_of_objGet
                                    rw [objGet_filter kvsPd POLICY_KEYS POLICY_NAME
                                      polKeys_name]
                                    exact pyGetItemS_obj_some kvsPd POLICY_NAME pn hpn
                                  rw [hpn2] at h
                                  simp only [exceptBind_ok] at h
                                  rw [check_policy_eq] at h
                                  simp only [exceptBind_ok, pure, Except.pure,
                                    Except.ok.injEq, Prod.mk.injEq] at h
                                  obtain ⟨hs3, hndt2⟩ := h
                                  subst hs3
                                  have hname : objGetJ (.obj (kvsPd.filter
                                      (fun kv => POLICY_KEYS.contains kv.1)))
                                      POLICY_NAME = pn := by
                                    rw [objGetJ_obj_eq,
                                      objGet_filter kvsPd POLICY_KEYS POLICY_NAME
                                        polKeys_name,
                                      pyGetItemS_obj_some kvsPd POLICY_NAME pn hpn]
                                    rfl
                                  refine ⟨⟨⟨[], by simp⟩, ⟨_, rfl⟩, ⟨[], by simp⟩⟩,
                                    ?_, ⟨_, hndt2.symm⟩, pn, hpure, ?_⟩
                                  · intro q hq
                                    exact serverOk_append_policy s
                                      ⟨objGetJ (.obj (kvsPd.filter
                                          (fun kv => POLICY_KEYS.contains kv.1)))
                                        POLICY_NAME, freshId s,
                                        .obj (kvsPd.filter
                                          (fun kv => POLICY_KEYS.contains kv.1))⟩
                                      hok (freshId_truthy s) q hq
                                  · exact ⟨⟨objGetJ (.obj (kvsPd.filter
                                        (fun kv => POLICY_KEYS.contains kv.1)))
                                        POLICY_NAME, freshId s,
                                        .obj (kvsPd.filter
                                          (fun kv => POLICY_KEYS.contains kv.1))⟩,
                                      List.mem_append_right s.policies
                                        (List.mem_singleton_self _),
                                      hname⟩

theorem processPolicy_rerun (td dt ndtB pn : JVal) (t : Server) (hok : ServerOk t)
    (hpure : policyNameOf td dt = .ok pn) (hnamed : PolNamed t pn) :
    ∃ w, processPolicy td dt ndtB t = .ok (t, pySet ndtB POLICY_ID w) := by
  unfold policyNameOf at hpure
  cases hnv : pyGetItemS dt TEMPLATE_NAME with
  | error e => rw [hnv] at hpure; simp at hpure
  | ok nameV =>
      rw [hnv] at hpure
      simp only [exceptBind_ok] at hpure
      cases hpd0 : pyDictGet td (pyStr nameV ++ "_policy") with
      | error e => rw [hpd0] at hpure; simp at hpure
      | ok o =>
          rw [hpd0] at hpure
          simp only [exceptBind_ok] at hpure
          cases hpid : pyGetItemS dt POLICY_ID with
          | error e => rw [hpid] at hpure; simp at hpure
          | ok policy_id =>
              rw [hpid] at hpure
              simp only [exceptBind_ok] at hpure
              cases hmem : pyMem policy_id (o.getD (.obj [])) with
              | error e => rw [hmem] at hpure; simp at hpure
              | ok b =>
                  rw [hmem] at hpure
                  simp only [exceptBind_ok] at hpure
                  cases hpdv : pyGetItemV (o.getD (.obj [])) policy_id with
                  | error e => rw [hpdv] at hpure; simp at hpure
                  | ok pd =>
                      rw [hpdv] at hpure
                      simp only [exceptBind_ok] at hpure
                      unfold processPolicy
                      rw [hnv]
                      simp only [exceptBind_ok]
                      rw [hpd0]
                      simp only [exceptBind_ok]
                      rw [hpid]
                      simp only [exceptBind_ok]
                      rw [hmem]
                      simp only [exceptBind_ok]
                      rw [hpdv]
                      simp only [exceptBind_ok]
                      rw [hpure]
                      simp only [exceptBind_ok]
                      obtain ⟨v, hv, htr⟩ := check_policy_found t pn hok hnamed
                      rw [hv]
                      simp only [exceptBind_ok]
                      rw [htr, if_pos rfl]
                      exact ⟨v, rfl⟩

theorem devNamed_any (t : Server) (n : JVal) (h : DevNamed t n) :
    t.devices.any (fun d => d.templateName == n) = true := by
  obtain ⟨d, hd, hdn⟩ := h
  rw [List.any_eq_true]
  exact ⟨d, hd, (JVal.beq_iff _ _).mpr hdn⟩

theorem tn_ne_gt : TEMPLATE_NAME ≠ GENERAL_TEMPLATES := by decide

theorem tn_ne_uid : TEMPLATE_NAME ≠ UID_RANGE := by decide

theorem tn_ne_pid : TEMPLATE_NAME ≠ POLICY_ID := by decide

theorem devKeys_tn : DEVICE_TEMPLATE_KEYS.contains TEMPLATE_NAME = true := rfl

/-- The rewritten, optionally policy-linked, projected device template
still answers the original template name; the projection succeeds and the
name subscript inside the existence scan succeeds. -/
theorem projected_name (m : List (JVal × JVal)) (dt ndt : JVal) (nameV : JVal)
    (w : Option JVal) (projected : JVal)
    (hrw : rewriteDeviceTemplate m dt = .ok ndt)
    (hnv : pyGetItemS dt TEMPLATE_NAME = .ok nameV)
    (hproj : pyProject (match w with
      | some wv => pySet ndt POLICY_ID wv
      | none => ndt) DEVICE_TEMPLATE_KEYS = .ok projected) :
    pyGetItemS projected TEMPLATE_NAME = .ok nameV := by
  obtain ⟨kvs, kvs2, hdt, hndt, hother⟩ := rewriteDevice_shape m dt ndt hrw
  subst hdt
  subst hndt
  have hname2 : objGet kvs2 TEMPLATE_NAME = some nameV := by
    rw [hother TEMPLATE_NAME tn_ne_gt tn_ne_uid]
    exact pyGetItemS_obj_some kvs TEMPLATE_NAME nameV hnv
  cases w with
  | none =>
      have hpj : projected = .obj (kvs2.filter
          (fun kv => DEVICE_TEMPLATE_KEYS.contains kv.1)) := by
        unfold pyProject at hproj
        cases hproj
        rfl
      subst hpj
      apply pyGetItemS_of_objGet
      rw [objGet_filter kvs2 DEVICE_TEMPLATE_KEYS TEMPLATE_NAME devKeys_tn]
      exact hname2
  | some wv =>
      have hpj : projected = .obj ((pySet.go POLICY_ID wv kvs2).filter
          (fun kv => DEVICE_TEMPLATE_KEYS.contains kv.1)) := by
        simp only [pySet_obj_eq] at hproj
        unfold pyProject at hproj
        cases hproj
        rfl
      subst hpj
      apply pyGetItemS_of_objGet
      rw [objGet_filter _ DEVICE_TEMPLATE_KEYS TEMPLATE_NAME devKeys_tn]
      rw [objGet_go_ne POLICY_ID wv TEMPLATE_NAME tn_ne_pid]
      exact hname2

theorem finishDevice_run (projIn : JVal) (nameV : JVal) (s3 s2 : Server)
    (hok3 : ServerOk s3)
    (hname : ∀ projected, pyProject projIn DEVICE_TEMPLATE_KEYS = .ok projected →
      pyGetItemS projected TEMPLATE_NAME = .ok nameV)
    (h : (do
      let projected ← pyProject projIn DEVICE_TEMPLATE_KEYS
      let devData ← apiGetData s3 DEVICE_PATH
      let devices ← pyIterE devData
      let template_exists ← scanDevices projected devices
      if template_exists then pure s3
      else do
        let (s4, _) ← apiPostChecked s3 DEVICE_FEATURE_PATH projected
        pure s4) = .ok s2) :
    ServerLe s3 s2 ∧ ServerOk s2 ∧ DevNamed s2 nameV := by
  cases hproj : pyProject projIn DEVICE_TEMPLATE_KEYS with
  | error e => rw [hproj] at h; simp at h
  | ok projected =>
      rw [hproj] at h
      simp only [exceptBind_ok] at h
      have hpn := hname projected hproj
      obtain ⟨d, hd, hiterd⟩ :=
        apiGetData_list s3 DEVICE_PATH (s3.devices.map devJVal) (serverGetRaw_devices s3)
      rw [hd] at h
      simp only [exceptBind_ok] at h
      rw [hiterd] at h
      simp only [exceptBind_ok] at h
      rw [scanDevices_eq projected nameV hpn s3.devices] at h
      simp only [exceptBind_ok] at h
      cases hany : s3.devices.any (fun d => d.templateName == nameV) with
      | true =>
          rw [hany, if_pos rfl] at h
          simp only [pure, Except.pure, Except.ok.injEq] at h
          subst h
          obtain ⟨dd, hdd, hdn⟩ := List.any_eq_true.mp hany
          exact ⟨serverLe_refl s3, hok3,
            dd, hdd, (JVal.beq_iff _ _).mp hdn⟩
      | false =>
          rw [hany] at h
          simp only [Bool.false_eq_true, if_false] at h
          rw [apiPostChecked_device s3 projected] at h
          simp only [exceptBind_ok, pure, Except.pure, Except.ok.injEq] at h
          subst h
          obtain ⟨kvsP, hkvsP⟩ := pyGetItemS_ok_obj projected TEMPLATE_NAME nameV hpn
          subst hkvsP
          have hgn : objGetJ (.obj kvsP) TEMPLATE_NAME = nameV := by
            rw [objGetJ_obj_eq, pyGetItemS_obj_some kvsP TEMPLATE_NAME nameV hpn]
            rfl
          refine ⟨⟨⟨[], by simp⟩, ⟨[], by simp⟩, ⟨_, rfl⟩⟩, hok3, ?_⟩
          exact ⟨⟨objGetJ (.obj kvsP) TEMPLATE_NAME, .obj kvsP⟩,
            List.mem_append_right s3.devices (List.mem_singleton_self _), hgn⟩

theorem finishDevice_rerun (projIn : JVal) (nameV : JVal) (t : Server)
    (hname : ∀ projected, pyProject projIn DEVICE_TEMPLATE_KEYS = .ok projected →
      pyGetItemS projected TEMPLATE_NAME = .ok nameV)
    (hsome : ∃ projected, pyProject projIn DEVICE_TEMPLATE_KEYS = .ok projected)
    (hnamed : DevNamed t nameV) :
    (do
      let projected ← pyProject projIn DEVICE_TEMPLATE_KEYS
      let devData ← apiGetData t DEVICE_PATH
      let devices ← pyIterE devData
      let template_exists ← scanDevices projected devices
      if template_exists then pure t
      else do
        let (s4, _) ← apiPostChecked t DEVICE_FEATURE_PATH projected
        pure s4) = .ok t := by
  obtain ⟨projected, hproj⟩ := hsome
  rw [hproj]
  simp only [exceptBind_ok]
  obtain ⟨d, hd, hiterd⟩ :=
    apiGetData_list t DEVICE_PATH (t.devices.map devJVal) (serverGetRaw_devices t)
  rw [hd]
  simp only [exceptBind_ok]
  rw [hiterd]
  simp only [exceptBind_ok]
  rw [scanDevices_eq projected nameV (hname projected hproj) t.devices]
  simp only [exceptBind_ok]
  rw [devNamed_any t nameV hnamed, if_pos rfl]
  rfl

theorem processDeviceTemplate_run (td : JVal) (s s2 : Server) (dt : JVal)
    (hok : ServerOk s) (h : processDeviceTemplate td s dt = .ok s2) :
    ServerLe s s2 ∧ ServerOk s2 ∧
      ∀ t, ServerLe s2 t → ServerOk t → processDeviceTemplate td t dt = .ok t := by
  unfold processDeviceTemplate at h
  cases hnv : pyGetItemS dt TEMPLATE_NAME with
  | error e => rw [hnv] at h; simp at h
  | ok nameV =>
      rw [hnv] at h
      simp only [exceptBind_ok] at h
      cases hfd0 : pyDictGet td (pyStr nameV ++ "_features") with
      | error e => rw [hfd0] at h; simp at h
      | ok fo =>
          rw [hfd0] at h
          simp only [exceptBind_ok] at h
          cases fo with
          | none =>
              simp only [pure, Except.pure, Except.ok.injEq] at h
              subst h
              refine ⟨serverLe_refl s, hok, ?_⟩
              intro t _ _
              unfold processDeviceTemplate
              rw [hnv]
              simp only [exceptBind_ok]
              rw [hfd0]
              simp only [exceptBind_ok]
              rfl
          | some feature_data =>
              simp only [exceptBind_ok] at h
              by_cases htr : truthy feature_data = false
              · rw [if_pos htr] at h
                simp only [pure, Except.pure, Except.ok.injEq] at h
                subst h
                refine ⟨serverLe_refl s, hok, ?_⟩
                intro t _ _
                unfold processDeviceTemplate
                rw [hnv]
                simp only [exceptBind_ok]
                rw [hfd0]
                simp only [exceptBind_ok]
                rw [if_pos htr]
                rfl
              · rw [if_neg htr] at h
                cases hiter : pyIterE feature_data with
                | error e => rw [hiter] at h; simp at h
                | ok keys =>
                    rw [hiter] at h
                    simp only [exceptBind_ok] at h
                    cases hfold : List.foldlM (processFeature feature_data)
                        (s, ([] : List (JVal × JVal))) keys with
                    | error e => rw [hfold] at h; simp at h
                    | ok acc =>
                        obtain ⟨s2a, id_map⟩ := acc
                        rw [hfold] at h
                        simp only [exceptBind_ok] at h
                        obtain ⟨hle1, hok1, hmemf, hrerunF⟩ :=
                          processFeatures_run feature_data keys s [] s2a id_map hok hfold
                        cases hrw : rewriteDeviceTemplate id_map dt with
                        | error e => rw [hrw] at h; simp at h
                        | ok new_dt =>
                            rw [hrw] at h
                            simp only [exceptBind_ok] at h
                            cases hpp : pyDictGet dt POLICY_ID with
                            | error e => rw [hpp] at h; simp at h
                            | ok ppo =>
                                rw [hpp] at h
                                simp only [exceptBind_ok] at h
                                by_cases htrp : truthyOpt ppo = true
                                · rw [if_pos htrp] at h
                                  cases hpol : processPolicy td dt new_dt s2a with
                                  | error e => rw [hpol] at h; simp at h
                                  | ok pres =>
                                      obtain ⟨s3, ndt2⟩ := pres
                                      rw [hpol] at h
                                      simp only [exceptBind_ok] at h
                                      obtain ⟨hle2, hok2, ⟨w, hndt2⟩, pn, hpurePol,
                                        hpoln⟩ := processPolicy_run td dt new_dt s2a
                                          s3 ndt2 hok1 hpol
                                      subst hndt2
                                      obtain ⟨hle3, hok3, hdev⟩ := finishDevice_run
                                        (pySet new_dt POLICY_ID w) nameV s3 s2 hok2
                                        (fun projected hp => projected_name id_map dt
                                          new_dt nameV (some w) projected hrw hnv hp) h
                                      refine ⟨serverLe_trans hle1
                                        (serverLe_trans hle2 hle3), hok3, ?_⟩
                                      intro t hlet hokt
                                      unfold processDeviceTemplate
                                      rw [hnv]
                                      simp only [exceptBind_ok]
                                      rw [hfd0]
                                      simp only [exceptBind_ok]
                                      rw [if_neg htr, hiter]
                                      simp only [exceptBind_ok]
                                      obtain ⟨mt2, hfold2, hmemt⟩ := hrerunF t
                                        (serverLe_trans hle2
                                          (serverLe_trans hle3 hlet)) []
                                      rw [hfold2]
                                      simp only [exceptBind_ok]
                                      have hsub : ∀ k, idMem id_map k = true →
                                          idMem mt2 k = true := by
                                        intro k hk
                                        rw [hmemt k]
                                        rw [hmemf k] at hk
                                        exact hk
                                      obtain ⟨ndtT, hrwT⟩ := rewriteDevice_transfer
                                        id_map mt2 hsub dt new_dt hrw
                                      rw [hrwT]
                                      simp only [exceptBind_ok]
                                      rw [hpp]
                                      simp only [exceptBind_ok]
                                      rw [if_pos htrp]
                                      obtain ⟨w2, hpolT⟩ := processPolicy_rerun td dt
                                        ndtT pn t hokt hpurePol
                                        (polNamed_mono (serverLe_trans hle3 hlet) hpoln)
                                      rw [hpolT]
                                      simp only [exceptBind_ok]
                                      have hsomeT : ∃ projected,
                                          pyProject (pySet ndtT POLICY_ID w2)
                                            DEVICE_TEMPLATE_KEYS = .ok projected := by
                                        obtain ⟨kvs, kvs2, hdt2, hndtT, _⟩ :=
                                          rewriteDevice_shape mt2 dt ndtT hrwT
                                        subst hndtT
                                        exact ⟨_, rfl⟩
                                      exact finishDevice_rerun
                                        (pySet ndtT POLICY_ID w2) nameV t
                                        (fun projected hp => projected_name mt2 dt
                                          ndtT nameV (some w2) projected hrwT hnv hp)
                                        hsomeT
                                        (devNamed_mono hlet hdev)
                                · rw [if_neg htrp] at h
                                  simp only [pure, Except.pure, exceptBind_ok] at h
                                  obtain ⟨hle3, hok3, hdev⟩ := finishDevice_run
                                    new_dt nameV s2a s2 hok1
                                    (fun projected hp => projected_name id_map dt
                                      new_dt nameV none projected hrw hnv hp) h
                                  refine ⟨serverLe_trans hle1 hle3, hok3, ?_⟩
                                  intro t hlet hokt
                                  unfold processDeviceTemplate
                                  rw [hnv]
                                  simp only [exceptBind_ok]
                                  rw [hfd0]
                                  simp only [exceptBind_ok]
                                  rw [if_neg htr, hiter]
                                  simp only [exceptBind_ok]
                                  obtain ⟨mt2, hfold2, hmemt⟩ := hrerunF t
                                    (serverLe_trans hle3 hlet) []
                                  rw [hfold2]
                                  simp only [exceptBind_ok]
                                  have hsub : ∀ k, idMem id_map k = true →
                                      idMem mt2 k = true := by
                                    intro k hk
                                    rw [hmemt k]
                                    rw [hmemf k] at hk
                                    exact hk
                                  obtain ⟨ndtT, hrwT⟩ := rewriteDevice_transfer
                                    id_map mt2 hsub dt new_dt hrw
                                  rw [hrwT]
                                  simp only [exceptBind_ok]
                                  rw [hpp]
                                  simp only [exceptBind_ok]
                                  rw [if_neg htrp]
                                  simp only [pure, Except.pure, exceptBind_ok]
                                  have hsomeT : ∃ projected,
                                      pyProject ndtT DEVICE_TEMPLATE_KEYS =
                                        .ok projected := by
                                    obtain ⟨kvs, kvs2, hdt2, hndtT, _⟩ :=
                                      rewriteDevice_shape mt2 dt ndtT hrwT
                                    subst hndtT
                                    exact ⟨_, rfl⟩
                                  exact finishDevice_rerun ndtT nameV t
                                    (fun projected hp => projected_name mt2 dt
                                      ndtT nameV none projected hrwT hnv hp)
                                    hsomeT
                                    (devNamed_mono hlet hdev)

theorem processDTs_fold_run (td : JVal) :
    ∀ (items : List JVal) (s s2 : Server), ServerOk s →
      List.foldlM (processDeviceTemplate td) s items = .ok s2 →
      ServerLe s s2 ∧ ServerOk s2 ∧
        ∀ t, ServerLe s2 t → ServerOk t →
          List.foldlM (processDeviceTemplate td) t items = .ok t := by
  intro items
  induction items with
  | nil =>
      intro s s2 hok h
      simp only [List.foldlM, pure, Except.pure, Except.ok.injEq] at h
      subst h
      exact ⟨serverLe_refl s, hok, fun t _ _ => rfl⟩
  | cons a rest ih =>
      intro s s2 hok h
      simp only [List.foldlM] at h
      cases hstep : processDeviceTemplate td s a with
      | error e => rw [hstep] at h; simp at h
      | ok s1 =>
          rw [hstep] at h
          simp only [exceptBind_ok] at h
          obtain ⟨hle1, hok1, hrerun1⟩ := processDeviceTemplate_run td s s1 a hok hstep
          obtain ⟨hle2, hok2, hrerun2⟩ := ih s1 s2 hok1 h
          refine ⟨serverLe_trans hle1 hle2, hok2, ?_⟩
          intro t hlet hokt
          simp only [List.foldlM]
          rw [hrerun1 t (serverLe_trans hle2 hlet) hokt]
          simp only [exceptBind_ok]
          exact hrerun2 t hlet hokt

/-- C2: running the Provisioning Engine a second time against the state a
successful run produced performs no create at all and returns that state
unchanged — so two runs from the same initial target state end in exactly
the remote object set one run produces (no duplicate feature templates,
policies or device templates).  The initial target is assumed well formed
in that its policies carry truthy (non-empty) ids, as vManage UUIDs are;
every id the engine itself assigns is truthy, so this is preserved. -/
theorem c2_import_idempotent (s0 s1 : Server) (template_dict : JVal)
    (hok : ServerOk s0)
    (h : import_provisioning_templates s0 template_dict = .ok s1) :
    import_provisioning_templates s1 template_dict = .ok s1 := by
  unfold import_provisioning_templates at h ⊢
  cases hdtd : pyDictGet template_dict "device_template" with
  | error e => rw [hdtd] at h; simp at h
  | ok o =>
      rw [hdtd] at h
      simp only [exceptBind_ok] at h ⊢
      cases o with
      | none => simp [throw, throwThe, MonadExceptOf.throw] at h
      | some dtd =>
          simp only [exceptBind_ok] at h ⊢
          cases htl : pyGetItemS dtd "templates" with
          | error e => rw [htl] at h; simp at h
          | ok templates =>
              rw [htl] at h
              simp only [exceptBind_ok] at h ⊢
              cases hit : pyIterE templates with
              | error e => rw [hit] at h; simp at h
              | ok items =>
                  rw [hit] at h
                  simp only [exceptBind_ok] at h ⊢
                  obtain ⟨hle, hok1, hrerun⟩ :=
                    processDTs_fold_run template_dict items s0 s1 hok h
                  exact hrerun s1 (serverLe_refl s1) hok1

/-- The feature bundle and device template for the C2 witness. -/
def c2WitnessDict : JVal :=
  .obj [("device_template", .obj [("templates", .list [
          .obj [(TEMPLATE_NAME, .str "t1"),
                (GENERAL_TEMPLATES, .list [.obj [(TEMPLATE_ID, .str "f1")]])]])]),
        ("t1_features", .obj [("f1", .obj [(TEMPLATE_NAME, .str "feat1")])])]

/-- The target state one run of the engine produces from the empty server
on `c2WitnessDict`. -/
def c2WitnessS1 : Server :=
  ⟨[⟨.str "feat1", .str "srv-0", .obj [(TEMPLATE_NAME, .str "feat1")]⟩], [],
   [⟨.str "t1", .obj [(TEMPLATE_NAME, .str "t1"),
      (GENERAL_TEMPLATES, .list [.obj [(TEMPLATE_ID, .str "srv-0")]])]⟩], 1⟩

/-- C2 witness: a second run over the produced state changes nothing. -/
theorem c2_import_idempotent_witness :
    import_provisioning_templates c2WitnessS1 c2WitnessDict = .ok c2WitnessS1 :=
  c2_import_idempotent emptyServer c2WitnessS1 c2WitnessDict
    (by intro p hp; cases hp) rfl

/-! ## Claim C9: the input template_dict is never mutated

The value-level engine above cannot express in-place mutation, so the
mutating section of `import_provisioning_templates` — the
`copy.deepcopy(device_template)` of line 214 followed by the subscript
assignments of lines 216-224 and 245, the only statements in the function
that assign into any data structure reachable from its arguments — is
modelled once more over an explicit object heap.  Python objects live in
cells addressed by `Nat`; dict and list cells hold addresses, and
`d[k] = v` becomes a store write.  The claim is then a frame property:
every cell that existed before the deep copy, in particular the whole of
`template_dict`, still holds its original object after the rewrite. -/

/-- A heap object: an immutable primitive, a list of addresses, or a
dict mapping string keys to addresses. -/
inductive HObj where
  | leaf (v : JVal)
  | hlist (elems : List Nat)
  | hdict (entries : List (String × Nat))
deriving DecidableEq

/-- The object store; the address of a cell is its index. -/
structure Heap where
  cells : List HObj
deriving DecidableEq

def Heap.read (h : Heap) (a : Nat) : Option HObj := h.cells.get? a

def Heap.alloc (h : Heap) (o : HObj) : Heap × Nat := (⟨h.cells ++ [o]⟩, h.cells.length)

def Heap.write (h : Heap) (a : Nat) (o : HObj) : Heap := ⟨h.cells.set a o⟩

def Heap.size (h : Heap) : Nat := h.cells.length

/-- The addresses a heap object refers to. -/
def HObj.refs : HObj → List Nat
  | .leaf _ => []
  | .hlist es => es
  | .hdict kvs => kvs.map (fun kv => kv.2)

mutual

/-- `copy.deepcopy` (utils.py line 214): recursively copy the object at an
address into fresh cells.  The fuel bounds the recursion depth; template
data read from JSON files is finite and acyclic, so a large enough fuel
always exists. -/
def deepcopyH : Nat → Heap → Nat → Option (Heap × Nat)
  | 0, _, _ => none
  | fuel + 1, h, a =>
      match h.read a with
      | none => none
      | some (.leaf v) => some (h.alloc (.leaf v))
      | some (.hlist es) =>
          match deepcopyHList fuel h es with
          | none => none
          | some (h2, es2) => some (h2.alloc (.hlist es2))
      | some (.hdict kvs) =>
          match deepcopyHEntries fuel h kvs with
          | none => none
          | some (h2, kvs2) => some (h2.alloc (.hdict kvs2))

/-- Deep copy of the elements of a list object. -/
def deepcopyHList : Nat → Heap → List Nat → Option (Heap × List Nat)
  | _, h, [] => some (h, [])
  | 0, _, _ :: _ => none
  | fuel + 1, h, a :: as =>
      match deepcopyH fuel h a with
      | none => none
      | some (h2, a2) =>
          match deepcopyHList fuel h2 as with
          | none => none
          | some (h3, as2) => some (h3, a2 :: as2)

/-- Deep copy of the entries of a dict object. -/
def deepcopyHEntries : Nat → Heap → List (String × Nat) →
    Option (Heap × List (String × Nat))
  | _, h, [] => some (h, [])
  | 0, _, _ :: _ => none
  | fuel + 1, h, (k, a) :: kvs =>
      match deepcopyH fuel h a with
      | none => none
      | some (h2, a2) =>
          match deepcopyHEntries fuel h2 kvs with
          | none => none
          | some (h3, kvs2) => some (h3, (k, a2) :: kvs2)

end

/-- `d[k]` on a heap dict, returning the address of the value. -/
def heapGetAddr (h : Heap) (a : Nat) (k : String) : Except PyExc Nat :=
  match h.read a with
  | some (.hdict kvs) =>
      match kvs.find? (fun kv => kv.1 = k) with
      | some kv => .ok kv.2
      | none => .error (.keyError (.str k))
  | _ => .error .typeError

/-- The primitive value stored at an address (the template ids the rewrite
reads are primitives; a container here would be unhashable as a dict key
and raise). -/
def heapLeaf (h : Heap) (a : Nat) : Except PyExc JVal :=
  match h.read a with
  | some (.leaf v) => .ok v
  | _ => .error .typeError

/-- Replace the first binding of a key, append when absent (dict
assignment). -/
def setEntry : List (String × Nat) → String → Nat → List (String × Nat)
  | [], k, va => [(k, va)]
  | kv :: rest, k, va =>
      if kv.1 = k then (k, va) :: rest else kv :: setEntry rest k va

/-- `d[k] = v` on a heap dict: a store write. -/
def heapDictSet (h : Heap) (a : Nat) (k : String) (va : Nat) : Heap :=
  match h.read a with
  | some (.hdict kvs) => h.write a (.hdict (setEntry kvs k va))
  | _ => h

/-- `d.get(k)` on a heap dict, as an optional value address. -/
def heapDictGetOpt (h : Heap) (a : Nat) (k : String) : Except PyExc (Option Nat) :=
  match h.read a with
  | some (.hdict kvs) => .ok ((kvs.find? (fun kv => kv.1 = k)).map (fun kv => kv.2))
  | _ => .error .attributeError

/-- The element addresses of a heap list (`for x in l`). -/
def heapListElems (h : Heap) (a : Nat) : Except PyExc (List Nat) :=
  match h.read a with
  | some (.hlist es) => .ok es
  | _ => .error .typeError

/-- `template[TEMPLATE_ID] = id_map[template[TEMPLATE_ID]]` (utils.py
lines 216, 220, 221, 224): read the id, map it, allocate the new value and
write the dict slot. -/
def writeLeafIdH (m : List (JVal × JVal)) (h : Heap) (fa : Nat) : Except PyExc Heap := do
  let va ← heapGetAddr h fa TEMPLATE_ID
  let oldId ← heapLeaf h va
  let nv ← idFetch m oldId
  let (h2, na) := h.alloc (.leaf nv)
  pure (heapDictSet h2 fa TEMPLATE_ID na)

/-- Sequential in-place loop over a list of addresses. -/
def writeManyH (f : Heap → Nat → Except PyExc Heap) : Heap → List Nat → Except PyExc Heap
  | h, [] => .ok h
  | h, a :: as => do
      let h2 ← f h a
      writeManyH f h2 as

/-- One nested `subTemplates` reference (utils.py lines 218-221): rewrite
its doubly-nested references in place, then its own id. -/
def rewriteSubH (m : List (JVal × JVal)) (h : Heap) (sa : Nat) : Except PyExc Heap := do
  let inner ← heapDictGetOpt h sa SUB_TEMPLATES
  let h2 ←
    match inner with
    | none => pure h
    | some ia => do
        let elems ← heapListElems h ia
        writeManyH (writeLeafIdH m) h elems
  writeLeafIdH m h2 sa

/-- One top-level `generalTemplates` reference (utils.py lines 215-221). -/
def rewriteGeneralH (m : List (JVal × JVal)) (h : Heap) (fa : Nat) : Except PyExc Heap := do
  let h1 ← writeLeafIdH m h fa
  let subs ← heapDictGetOpt h1 fa SUB_TEMPLATES
  match subs with
  | none => pure h1
  | some sa => do
      let elems ← heapListElems h1 sa
      writeManyH (rewriteSubH m) h1 elems

/-- The in-place mutation of the deep-copied device template (utils.py
lines 215-224 and 245): rewrite all reference levels, the uid range, and
finally assign the re-resolved policy id (`npid` is the value
`_check_policy` produced when the device template carries a policy,
`none` otherwise). -/
def processCopyInPlace (m : List (JVal × JVal)) (npid : Option JVal) (h : Heap)
    (ca : Nat) : Except PyExc Heap := do
  let ga ← heapGetAddr h ca GENERAL_TEMPLATES
  let gelems ← heapListElems h ga
  let h1 ← writeManyH (rewriteGeneralH m) h gelems
  let uo ← heapDictGetOpt h1 ca UID_RANGE
  let h2 ←
    match uo with
    | none => pure h1
    | some ua => do
        let uelems ← heapListElems h1 ua
        writeManyH (writeLeafIdH m) h1 uelems
  match npid with
  | none => pure h2
  | some v =>
      let (h3, na) := h2.alloc (.leaf v)
      pure (heapDictSet h3 ca POLICY_ID na)

/-- All addresses below `n0` read the same in two heaps, sizes only grow,
and every cell at or above `n0` refers only to cells at or above `n0`:
the state relation each mutating statement of lines 215-245 preserves. -/
def LowerClosed (n0 : Nat) (h : Heap) : Prop :=
  ∀ j o, n0 ≤ j → h.read j = some o → ∀ r, r ∈ o.refs → n0 ≤ r

def HStep (n0 : Nat) (h h2 : Heap) : Prop :=
  (∀ i, i < n0 → h2.read i = h.read i) ∧ h.size ≤ h2.size ∧ LowerClosed n0 h2

theorem hstep_refl (n0 : Nat) (h : Heap) (hc : LowerClosed n0 h) : HStep n0 h h :=
  ⟨fun _ _ => rfl, Nat.le_refl _, hc⟩

theorem hstep_trans (n0 : Nat) (h g h2 : Heap) (h1 : HStep n0 h g)
    (h2s : HStep n0 g h2) : HStep n0 h h2 :=
  ⟨fun i hi => (h2s.1 i hi).trans (h1.1 i hi), Nat.le_trans h1.2.1 h2s.2.1, h2s.2.2⟩

theorem lowerClosed_size (h : Heap) : LowerClosed h.size h := by
  intro j o hj hr r _
  have : h.read j = none := List.get?_eq_none.mpr hj
  rw [this] at hr
  exact absurd hr (by simp)

theorem heap_read_alloc_lt (h : Heap) (o : HObj) (i : Nat) (hi : i < h.size) :
    (h.alloc o).1.read i = h.read i := by
  simp only [Heap.alloc, Heap.read]
  exact List.get?_append hi

theorem heap_read_alloc_cases (h : Heap) (o : HObj) (j : Nat) (o2 : HObj)
    (hr : (h.alloc o).1.read j = some o2) : h.read j = some o2 ∨ o2 = o := by
  by_cases hj : j < h.size
  · exact Or.inl ((heap_read_alloc_lt h o j hj).symm.trans hr)
  · right
    by_cases he : j = h.size
    · subst he
      have : (h.alloc o).1.read h.size = some o := by
        simp only [Heap.alloc, Heap.read, Heap.size]
        exact List.get?_concat_length _ _
      rw [this] at hr
      exact (Option.some.injEq _ _ ▸ hr).symm
    · exfalso
      have hge : h.size + 1 ≤ j := Nat.succ_le_of_lt (Nat.lt_of_le_of_ne (Nat.le_of_not_lt hj) (fun hx => he hx.symm))
      have : (h.alloc o).1.read j = none := by
        apply List.get?_eq_none.mpr
        simp only [Heap.alloc, List.length_append, List.length_cons, List.length_nil]
        exact hge
      rw [this] at hr
      exact absurd hr (by simp)

theorem heap_size_alloc (h : Heap) (o : HObj) : (h.alloc o).1.size = h.size + 1 := by
  simp [Heap.alloc, Heap.size]

theorem alloc_spec (n0 : Nat) (h : Heap) (o : HObj) (hn : n0 ≤ h.size)
    (hc : LowerClosed n0 h) (ho : ∀ r, r ∈ o.refs → n0 ≤ r) :
    HStep n0 h (h.alloc o).1 ∧ (h.alloc o).2 = h.size := by
  refine ⟨⟨fun i hi => heap_read_alloc_lt h o i (Nat.lt_of_lt_of_le hi hn), ?_, ?_⟩, rfl⟩
  · rw [heap_size_alloc]; exact Nat.le_succ _
  · intro j o2 hj hr r hrr
    rcases heap_read_alloc_cases h o j o2 hr with hold | hnew
    · exact hc j o2 hj hold r hrr
    · subst hnew
      exact ho r hrr

theorem heap_size_write (h : Heap) (a : Nat) (o : HObj) : (h.write a o).size = h.size := by
  simp [Heap.write, Heap.size]

theorem heap_read_write_ne (h : Heap) (a : Nat) (o : HObj) (i : Nat) (hne : a ≠ i) :
    (h.write a o).read i = h.read i := by
  simp only [Heap.write, Heap.read]
  exact List.get?_set_ne _ _ hne

theorem heap_read_write_cases (h : Heap) (a : Nat) (o : HObj) (j : Nat) (o2 : HObj)
    (hr : (h.write a o).read j = some o2) : h.read j = some o2 ∨ o2 = o := by
  by_cases hj : a = j
  · subst hj
    simp only [Heap.write, Heap.read, List.get?_set_eq] at hr
    cases hg : (h.cells.get? a) with
    | none => rw [hg] at hr; exact absurd hr (by simp)
    | some w =>
        rw [hg] at hr
        simp only [Option.map_some] at hr
        exact Or.inr (Option.some.injEq _ _ ▸ hr).symm
  · exact Or.inl ((heap_read_write_ne h a o j hj).symm.trans hr)

theorem write_spec (n0 : Nat) (h : Heap) (a : Nat) (o : HObj) (ha : n0 ≤ a)
    (hc : LowerClosed n0 h) (ho : ∀ r, r ∈ o.refs → n0 ≤ r) :
    HStep n0 h (h.write a o) := by
  refine ⟨fun i hi => heap_read_write_ne h a o i (fun hx => Nat.lt_irrefl i (Nat.lt_of_lt_of_le hi (hx ▸ ha))), ?_, ?_⟩
  · rw [heap_size_write]
  · intro j o2 hj hr r hrr
    rcases heap_read_write_cases h a o j o2 hr with hold | hnew
    · exact hc j o2 hj hold r hrr
    · subst hnew
      exact ho r hrr

/-- `copy.deepcopy` only appends fresh cells: pre-existing cells below a
bound keep their contents, and the freshly built region is lower-closed —
every new cell refers only to addresses at or above the bound, so the copy
shares nothing mutable with the original. -/
theorem deepcopy_spec (n0 : Nat) : ∀ fuel : Nat,
    (∀ h a h2 c, n0 ≤ h.size → LowerClosed n0 h →
      deepcopyH fuel h a = some (h2, c) → HStep n0 h h2 ∧ n0 ≤ c) ∧
    (∀ h as h2 cs, n0 ≤ h.size → LowerClosed n0 h →
      deepcopyHList fuel h as = some (h2, cs) →
      HStep n0 h h2 ∧ ∀ c, c ∈ cs → n0 ≤ c) ∧
    (∀ h kvs h2 kvs2, n0 ≤ h.size → LowerClosed n0 h →
      deepcopyHEntries fuel h kvs = some (h2, kvs2) →
      HStep n0 h h2 ∧ ∀ kv, kv ∈ kvs2 → n0 ≤ kv.2) := by
  intro fuel
  induction fuel with
  | zero =>
      refine ⟨fun h a h2 c _ _ hcall => ?_, fun h as h2 cs hsz hc hcall => ?_, fun h kvs h2 kvs2 hsz hc hcall => ?_⟩
      · exact absurd hcall (by simp [deepcopyH])
      · cases as with
        | nil =>
            simp only [deepcopyHList, Option.some.injEq, Prod.mk.injEq] at hcall
            obtain ⟨h1, h2e⟩ := hcall
            subst h1; subst h2e
            exact ⟨hstep_refl n0 h hc, fun c hcmem => absurd hcmem (by simp)⟩
        | cons a as => exact absurd hcall (by simp [deepcopyHList])
      · cases kvs with
        | nil =>
            simp only [deepcopyHEntries, Option.some.injEq, Prod.mk.injEq] at hcall
            obtain ⟨h1, h2e⟩ := hcall
            subst h1; subst h2e
            exact ⟨hstep_refl n0 h hc, fun kv hkvmem => absurd hkvmem (by simp)⟩
        | cons kv kvs => exact absurd hcall (by simp [deepcopyHEntries])
  | succ fuel ih =>
      obtain ⟨ih1, ih2, ih3⟩ := ih
      refine ⟨fun h a h2 c hsz hc hcall => ?_, fun h as h2 cs hsz hc hcall => ?_, fun h kvs h2 kvs2 hsz hc hcall => ?_⟩
      · cases hr : h.read a with
        | none => rw [deepcopyH, hr] at hcall; exact absurd hcall (by simp)
        | some o =>
            cases o with
            | leaf v =>
                rw [deepcopyH, hr] at hcall
                simp only [Option.some.injEq, Prod.ext_iff] at hcall
                obtain ⟨hh2, hcc⟩ := hcall
                subst hh2
                have ha := alloc_spec n0 h (.leaf v) hsz hc (fun r hrr => absurd hrr (by simp [HObj.refs]))
                exact ⟨ha.1, by rw [hcc.symm.trans ha.2]; exact hsz⟩
            | hlist es =>
                rw [deepcopyH, hr] at hcall
                simp only [] at hcall
                cases hL : deepcopyHList fuel h es with
                | none => rw [hL] at hcall; exact absurd hcall (by simp)
                | some p =>
                    rw [hL] at hcall
                    obtain ⟨g, es2⟩ := p
                    simp only [Option.some.injEq, Prod.ext_iff] at hcall
                    obtain ⟨hh2, hcc⟩ := hcall
                    subst hh2
                    obtain ⟨hstepg, hels⟩ := ih2 h es g es2 hsz hc hL
                    have hszg : n0 ≤ g.size := Nat.le_trans hsz hstepg.2.1
                    have ha := alloc_spec n0 g (.hlist es2) hszg hstepg.2.2
                      (fun r hrr => hels r (by simpa [HObj.refs] using hrr))
                    exact ⟨hstep_trans n0 h g _ hstepg ha.1, by rw [hcc.symm.trans ha.2]; exact hszg⟩
            | hdict kvs =>
                rw [deepcopyH, hr] at hcall
                simp only [] at hcall
                cases hE : deepcopyHEntries fuel h kvs with
                | none => rw [hE] at hcall; exact absurd hcall (by simp)
                | some p =>
                    rw [hE] at hcall
                    obtain ⟨g, kvs2⟩ := p
                    simp only [Option.some.injEq, Prod.ext_iff] at hcall
                    obtain ⟨hh2, hcc⟩ := hcall
                    subst hh2
                    obtain ⟨hstepg, hels⟩ := ih3 h kvs g kvs2 hsz hc hE
                    have hszg : n0 ≤ g.size := Nat.le_trans hsz hstepg.2.1
                    have ha := alloc_spec n0 g (.hdict kvs2) hszg hstepg.2.2 (fun r hrr => by
                      simp only [HObj.refs, List.mem_map] at hrr
                      obtain ⟨kv, hkv, hkv2⟩ := hrr
                      exact hkv2 ▸ hels kv hkv)
                    exact ⟨hstep_trans n0 h g _ hstepg ha.1, by rw [hcc.symm.trans ha.2]; exact hszg⟩
      · cases as with
        | nil =>
            simp only [deepcopyHList, Option.some.injEq, Prod.mk.injEq] at hcall
            obtain ⟨h1, h2e⟩ := hcall
            subst h1; subst h2e
            exact ⟨hstep_refl n0 h hc, fun c hcmem => absurd hcmem (by simp)⟩
        | cons a as =>
            rw [deepcopyHList] at hcall
            cases hA : deepcopyH fuel h a with
            | none => rw [hA] at hcall; exact absurd hcall (by simp)
            | some p =>
                rw [hA] at hcall
                obtain ⟨g, a2⟩ := p
                simp only [] at hcall
                cases hB : deepcopyHList fuel g as with
                | none => rw [hB] at hcall; exact absurd hcall (by simp)
                | some q =>
                    rw [hB] at hcall
                    obtain ⟨g2, as2⟩ := q
                    simp only [Option.some.injEq, Prod.mk.injEq] at hcall
                    obtain ⟨hh2, hcs⟩ := hcall
                    subst hh2
                    obtain ⟨hstepg, ha2⟩ := ih1 h a g a2 hsz hc hA
                    obtain ⟨hstepg2, has2⟩ := ih2 g as g2 as2 (Nat.le_trans hsz hstepg.2.1) hstepg.2.2 hB
                    refine ⟨hstep_trans n0 h g g2 hstepg hstepg2, fun c hcmem => ?_⟩
                    rw [hcs.symm] at hcmem
                    rcases List.mem_cons.mp hcmem with hch | hct
                    · exact hch ▸ ha2
                    · exact has2 c hct
      · cases kvs with
        | nil =>
            simp only [deepcopyHEntries, Option.some.injEq, Prod.mk.injEq] at hcall
            obtain ⟨h1, h2e⟩ := hcall
            subst h1; subst h2e
            exact ⟨hstep_refl n0 h hc, fun kv hkvmem => absurd hkvmem (by simp)⟩
        | cons kv kvs =>
            obtain ⟨k, a⟩ := kv
            rw [deepcopyHEntries] at hcall
            cases hA : deepcopyH fuel h a with
            | none => rw [hA] at hcall; exact absurd hcall (by simp)
            | some p =>
                rw [hA] at hcall
                obtain ⟨g, a2⟩ := p
                simp only [] at hcall
                cases hB : deepcopyHEntries fuel g kvs with
                | none => rw [hB] at hcall; exact absurd hcall (by simp)
                | some q =>
                    rw [hB] at hcall
                    obtain ⟨g2, kvs2t⟩ := q
                    simp only [Option.some.injEq, Prod.mk.injEq] at hcall
                    obtain ⟨hh2, hcs⟩ := hcall
                    subst hh2
                    obtain ⟨hstepg, ha2⟩ := ih1 h a g a2 hsz hc hA
                    obtain ⟨hstepg2, has2⟩ := ih3 g kvs g2 kvs2t (Nat.le_trans hsz hstepg.2.1) hstepg.2.2 hB
                    refine ⟨hstep_trans n0 h g g2 hstepg hstepg2, fun kv2 hkvmem => ?_⟩
                    rw [hcs.symm] at hkvmem
                    rcases List.mem_cons.mp hkvmem with hch | hct
                    · rw [hch]; exact ha2
                    · exact has2 kv2 hct

theorem heapGetAddr_ge (n0 : Nat) (h : Heap) (a va : Nat) (k : String)
    (hc : LowerClosed n0 h) (ha : n0 ≤ a) (hg : heapGetAddr h a k = .ok va) : n0 ≤ va := by
  unfold heapGetAddr at hg
  split at hg
  · rename_i kvs hr
    split at hg
    · rename_i kv hf
      simp only [Except.ok.injEq] at hg
      have hmem : kv ∈ kvs := List.mem_of_find?_eq_some hf
      exact hg ▸ hc a (.hdict kvs) ha hr kv.2
        (by simp only [HObj.refs]; exact List.mem_map_of_mem _ hmem)
    · exact absurd hg (by simp)
  · exact absurd hg (by simp)

theorem heapListElems_ge (n0 : Nat) (h : Heap) (a : Nat) (es : List Nat)
    (hc : LowerClosed n0 h) (ha : n0 ≤ a) (hg : heapListElems h a = .ok es) :
    ∀ e, e ∈ es → n0 ≤ e := by
  unfold heapListElems at hg
  split at hg
  · rename_i es2 hr
    simp only [Except.ok.injEq] at hg
    intro e he
    exact hc a (.hlist es2) ha hr e (by simp only [HObj.refs]; exact hg ▸ he)
  · exact absurd hg (by simp)

theorem heapDictGetOpt_ge (n0 : Nat) (h : Heap) (a va : Nat) (k : String)
    (hc : LowerClosed n0 h) (ha : n0 ≤ a)
    (hg : heapDictGetOpt h a k = .ok (some va)) : n0 ≤ va := by
  unfold heapDictGetOpt at hg
  split at hg
  · rename_i kvs hr
    simp only [Except.ok.injEq] at hg
    cases hf : kvs.find? (fun kv => kv.1 = k) with
    | none => rw [hf] at hg; exact absurd hg (by simp)
    | some kv =>
        rw [hf] at hg
        simp only [Option.map_some', Option.some.injEq] at hg
        have hmem : kv ∈ kvs := List.mem_of_find?_eq_some hf
        exact hg ▸ hc a (.hdict kvs) ha hr kv.2
          (by simp only [HObj.refs]; exact List.mem_map_of_mem _ hmem)
  · exact absurd hg (by simp)

theorem setEntry_refs (kvs : List (String × Nat)) (k : String) (va x : Nat)
    (hx : x ∈ (setEntry kvs k va).map (fun kv => kv.2)) :
    x = va ∨ x ∈ kvs.map (fun kv => kv.2) := by
  induction kvs with
  | nil =>
      simp only [setEntry, List.map_cons, List.map_nil, List.mem_cons] at hx
      rcases hx with hx | hx
      · exact Or.inl hx
      · exact absurd hx (by simp)
  | cons kv rest ih =>
      by_cases hk : kv.1 = k
      · simp only [setEntry, if_pos hk, List.map_cons, List.mem_cons] at hx
        rcases hx with hx | hx
        · exact Or.inl hx
        · exact Or.inr (by simp only [List.map_cons, List.mem_cons]; exact Or.inr hx)
      · simp only [setEntry, if_neg hk, List.map_cons, List.mem_cons] at hx
        rcases hx with hx | hx
        · exact Or.inr (by simp only [List.map_cons, List.mem_cons]; exact Or.inl hx)
        · rcases ih hx with hv | ho
          · exact Or.inl hv
          · exact Or.inr (by simp only [List.map_cons, List.mem_cons]; exact Or.inr ho)

theorem heapDictSet_spec (n0 : Nat) (h : Heap) (a va : Nat) (k : String)
    (hc : LowerClosed n0 h) (ha : n0 ≤ a) (hva : n0 ≤ va) :
    HStep n0 h (heapDictSet h a k va) := by
  unfold heapDictSet
  cases hr : h.read a with
  | none => exact hstep_refl n0 h hc
  | some o =>
      cases o with
      | leaf v => exact hstep_refl n0 h hc
      | hlist es => exact hstep_refl n0 h hc
      | hdict kvs =>
          apply write_spec n0 h a _ ha hc
          intro r hrr
          simp only [HObj.refs] at hrr
          rcases setEntry_refs kvs k va r hrr with hv | ho
          · exact hv ▸ hva
          · exact hc a (.hdict kvs) ha hr r (by simp only [HObj.refs]; exact ho)

theorem writeLeafIdH_spec (n0 : Nat) (m : List (JVal × JVal)) (h : Heap) (fa : Nat)
    (h2 : Heap) (hsz : n0 ≤ h.size) (hc : LowerClosed n0 h) (hfa : n0 ≤ fa)
    (hcall : writeLeafIdH m h fa = .ok h2) : HStep n0 h h2 := by
  unfold writeLeafIdH at hcall
  cases hva : heapGetAddr h fa TEMPLATE_ID with
  | error e => rw [hva] at hcall; exact absurd hcall (by simp [exceptBind_error])
  | ok va =>
      rw [hva] at hcall
      simp only [exceptBind_ok] at hcall
      cases hold : heapLeaf h va with
      | error e => rw [hold] at hcall; exact absurd hcall (by simp [exceptBind_error])
      | ok oldId =>
          rw [hold] at hcall
          simp only [exceptBind_ok] at hcall
          cases hnv : idFetch m oldId with
          | error e => rw [hnv] at hcall; exact absurd hcall (by simp [exceptBind_error])
          | ok nv =>
              rw [hnv] at hcall
              simp only [exceptBind_ok, pure, Except.pure, Except.ok.injEq] at hcall
              have halloc := alloc_spec n0 h (.leaf nv) hsz hc
                (fun r hrr => absurd hrr (by simp [HObj.refs]))
              have hset := heapDictSet_spec n0 (h.alloc (.leaf nv)).1 fa
                (h.alloc (.leaf nv)).2 TEMPLATE_ID halloc.1.2.2 hfa
                (by rw [halloc.2]; exact hsz)
              rw [hcall.symm]
              exact hstep_trans n0 h _ _ halloc.1 hset

theorem writeManyH_spec (n0 : Nat) (f : Heap → Nat → Except PyExc Heap)
    (hf : ∀ g a g2, n0 ≤ g.size → LowerClosed n0 g → n0 ≤ a →
      f g a = .ok g2 → HStep n0 g g2) :
    ∀ as h h2, n0 ≤ h.size → LowerClosed n0 h → (∀ a, a ∈ as → n0 ≤ a) →
      writeManyH f h as = .ok h2 → HStep n0 h h2 := by
  intro as
  induction as with
  | nil =>
      intro h h2 hsz hc hmem hcall
      simp only [writeManyH, Except.ok.injEq] at hcall
      exact hcall ▸ hstep_refl n0 h hc
  | cons a as ih =>
      intro h h2 hsz hc hmem hcall
      rw [writeManyH] at hcall
      cases hfa : f h a with
      | error e => rw [hfa] at hcall; exact absurd hcall (by simp [exceptBind_error])
      | ok g =>
          rw [hfa] at hcall
          simp only [exceptBind_ok] at hcall
          have hstepg := hf h a g hsz hc (hmem a (List.mem_cons_self a as)) hfa
          have hstepg2 := ih g h2 (Nat.le_trans hsz hstepg.2.1) hstepg.2.2
            (fun x hx => hmem x (List.mem_cons_of_mem a hx)) hcall
          exact hstep_trans n0 h g h2 hstepg hstepg2

theorem rewriteSubH_spec (n0 : Nat) (m : List (JVal × JVal)) (h : Heap) (sa : Nat)
    (h2 : Heap) (hsz : n0 ≤ h.size) (hc : LowerClosed n0 h) (hsa : n0 ≤ sa)
    (hcall : rewriteSubH m h sa = .ok h2) : HStep n0 h h2 := by
  unfold rewriteSubH at hcall
  cases hin : heapDictGetOpt h sa SUB_TEMPLATES with
  | error e => rw [hin] at hcall; exact absurd hcall (by simp [exceptBind_error])
  | ok o =>
      rw [hin] at hcall
      simp only [exceptBind_ok] at hcall
      cases o with
      | none =>
          simp only [pure, Except.pure, exceptBind_ok] at hcall
          exact writeLeafIdH_spec n0 m h sa h2 hsz hc hsa hcall
      | some ia =>
          simp only [exceptBind_ok] at hcall
          cases hel : heapListElems h ia with
          | error e => rw [hel] at hcall; exact absurd hcall (by simp [exceptBind_error])
          | ok es =>
              rw [hel] at hcall
              simp only [exceptBind_ok] at hcall
              cases hw : writeManyH (writeLeafIdH m) h es with
              | error e => rw [hw] at hcall; exact absurd hcall (by simp [exceptBind_error])
              | ok g =>
                  rw [hw] at hcall
                  simp only [exceptBind_ok] at hcall
                  have hia : n0 ≤ ia := heapDictGetOpt_ge n0 h sa ia SUB_TEMPLATES hc hsa hin
                  have hes := heapListElems_ge n0 h ia es hc hia hel
                  have hstep1 := writeManyH_spec n0 (writeLeafIdH m)
                    (fun g a g2 hs hcg ha hcg2 => writeLeafIdH_spec n0 m g a g2 hs hcg ha hcg2)
                    es h g hsz hc hes hw
                  have hstep2 := writeLeafIdH_spec n0 m g sa h2
                    (Nat.le_trans hsz hstep1.2.1) hstep1.2.2 hsa hcall
                  exact hstep_trans n0 h g h2 hstep1 hstep2

theorem rewriteGeneralH_spec (n0 : Nat) (m : List (JVal × JVal)) (h : Heap) (fa : Nat)
    (h2 : Heap) (hsz : n0 ≤ h.size) (hc : LowerClosed n0 h) (hfa : n0 ≤ fa)
    (hcall : rewriteGeneralH m h fa = .ok h2) : HStep n0 h h2 := by
  unfold rewriteGeneralH at hcall
  cases h1c : writeLeafIdH m h fa with
  | error e => rw [h1c] at hcall; exact absurd hcall (by simp [exceptBind_error])
  | ok h1 =>
      rw [h1c] at hcall
      simp only [exceptBind_ok] at hcall
      have hstep1 := writeLeafIdH_spec n0 m h fa h1 hsz hc hfa h1c
      have hsz1 : n0 ≤ h1.size := Nat.le_trans hsz hstep1.2.1
      cases hsubs : heapDictGetOpt h1 fa SUB_TEMPLATES with
      | error e => rw [hsubs] at hcall; exact absurd hcall (by simp [exceptBind_error])
      | ok o =>
          rw [hsubs] at hcall
          simp only [exceptBind_ok] at hcall
          cases o with
          | none =>
              simp only [pure, Except.pure, Except.ok.injEq] at hcall
              exact hcall ▸ hstep1
          | some sa =>
              simp only [exceptBind_ok] at hcall
              cases hel : heapListElems h1 sa with
              | error e => rw [hel] at hcall; exact absurd hcall (by simp [exceptBind_error])
              | ok es =>
                  rw [hel] at hcall
                  simp only [exceptBind_ok] at hcall
                  have hsa : n0 ≤ sa :=
                    heapDictGetOpt_ge n0 h1 fa sa SUB_TEMPLATES hstep1.2.2 hfa hsubs
                  have hes := heapListElems_ge n0 h1 sa es hstep1.2.2 hsa hel
                  have hstep2 := writeManyH_spec n0 (rewriteSubH m)
                    (fun g a g2 hs hcg ha hcg2 => rewriteSubH_spec n0 m g a g2 hs hcg ha hcg2)
                    es h1 h2 hsz1 hstep1.2.2 hes hcall
                  exact hstep_trans n0 h h1 h2 hstep1 hstep2

theorem processCopyInPlace_spec (n0 : Nat) (m : List (JVal × JVal)) (npid : Option JVal)
    (h : Heap) (ca : Nat) (h2 : Heap) (hsz : n0 ≤ h.size) (hc : LowerClosed n0 h)
    (hca : n0 ≤ ca) (hcall : processCopyInPlace m npid h ca = .ok h2) : HStep n0 h h2 := by
  unfold processCopyInPlace at hcall
  cases hga : heapGetAddr h ca GENERAL_TEMPLATES with
  | error e => rw [hga] at hcall; exact absurd hcall (by simp [exceptBind_error])
  | ok ga =>
      rw [hga] at hcall
      simp only [exceptBind_ok] at hcall
      cases hgel : heapListElems h ga with
      | error e => rw [hgel] at hcall; exact absurd hcall (by simp [exceptBind_error])
      | ok gelems =>
          rw [hgel] at hcall
          simp only [exceptBind_ok] at hcall
          cases hw1 : writeManyH (rewriteGeneralH m) h gelems with
          | error e => rw [hw1] at hcall; exact absurd hcall (by simp [exceptBind_error])
          | ok g1 =>
              rw [hw1] at hcall
              simp only [exceptBind_ok] at hcall
              have hgage : n0 ≤ ga := heapGetAddr_ge n0 h ca ga GENERAL_TEMPLATES hc hca hga
              have hgeles := heapListElems_ge n0 h ga gelems hc hgage hgel
              have hstep1 := writeManyH_spec n0 (rewriteGeneralH m)
                (fun g a g2 hs hcg ha hcg2 => rewriteGeneralH_spec n0 m g a g2 hs hcg ha hcg2)
                gelems h g1 hsz hc hgeles hw1
              have hsz1 : n0 ≤ g1.size := Nat.le_trans hsz hstep1.2.1
              cases huo : heapDictGetOpt g1 ca UID_RANGE with
              | error e => rw [huo] at hcall; exact absurd hcall (by simp [exceptBind_error])
              | ok o =>
                  rw [huo] at hcall
                  simp only [exceptBind_ok] at hcall
                  cases o with
                  | none =>
                      simp only [pure, Except.pure, exceptBind_ok] at hcall
                      cases npid with
                      | none =>
                          simp only [Except.ok.injEq] at hcall
                          exact hcall ▸ hstep1
                      | some v =>
                          simp only [Except.ok.injEq] at hcall
                          have halloc := alloc_spec n0 g1 (.leaf v) hsz1 hstep1.2.2
                            (fun r hrr => absurd hrr (by simp [HObj.refs]))
                          have hset := heapDictSet_spec n0 (g1.alloc (.leaf v)).1 ca
                            (g1.alloc (.leaf v)).2 POLICY_ID halloc.1.2.2 hca
                            (by rw [halloc.2]; exact hsz1)
                          exact hcall ▸ hstep_trans n0 h _ _
                            (hstep_trans n0 h g1 _ hstep1 halloc.1) hset
                  | some ua =>
                      simp only [exceptBind_ok] at hcall
                      cases huel : heapListElems g1 ua with
                      | error e => rw [huel] at hcall; exact absurd hcall (by simp [exceptBind_error])
                      | ok uelems =>
                          rw [huel] at hcall
                          simp only [exceptBind_ok] at hcall
                          cases hw2 : writeManyH (writeLeafIdH m) g1 uelems with
                          | error e => rw [hw2] at hcall; exact absurd hcall (by simp [exceptBind_error])
                          | ok g2 =>
                              rw [hw2] at hcall
                              simp only [exceptBind_ok, pure, Except.pure] at hcall
                              have hua : n0 ≤ ua :=
                                heapDictGetOpt_ge n0 g1 ca ua UID_RANGE hstep1.2.2 hca huo
                              have huels := heapListElems_ge n0 g1 ua uelems hstep1.2.2 hua huel
                              have hstep2 := writeManyH_spec n0 (writeLeafIdH m)
                                (fun g a g2x hs hcg ha hcg2 =>
                                  writeLeafIdH_spec n0 m g a g2x hs hcg ha hcg2)
                                uelems g1 g2 hsz1 hstep1.2.2 huels hw2
                              have hstepg2 := hstep_trans n0 h g1 g2 hstep1 hstep2
                              have hszg2 : n0 ≤ g2.size := Nat.le_trans hsz hstepg2.2.1
                              cases npid with
                              | none =>
                                  simp only [Except.ok.injEq] at hcall
                                  exact hcall ▸ hstepg2
                              | some v =>
                                  simp only [Except.ok.injEq] at hcall
                                  have halloc := alloc_spec n0 g2 (.leaf v) hszg2 hstepg2.2.2
                                    (fun r hrr => absurd hrr (by simp [HObj.refs]))
                                  have hset := heapDictSet_spec n0 (g2.alloc (.leaf v)).1 ca
                                    (g2.alloc (.leaf v)).2 POLICY_ID halloc.1.2.2 hca
                                    (by rw [halloc.2]; exact hszg2)
                                  exact hcall ▸ hstep_trans n0 h _ _
                                    (hstep_trans n0 h g2 _ hstepg2 halloc.1) hset

/-- C9: import_provisioning_templates never mutates its input template_dict.
In the heap model of the mutating section of the function — the
`copy.deepcopy(device_template)` of utils.py line 214 followed by the
in-place subscript assignments of lines 215-224 and 245, the only
statements that assign into data reachable from the input — every cell
that exists before the deep copy, hence the whole of template_dict
(device-template collection, feature bundles and policy bundles alike),
still holds exactly its original object after the rewrite completes; all
writes land in the freshly copied region and in fresh allocations. -/
theorem c9_no_input_mutation (fuel : Nat) (h0 : Heap) (dtAddr : Nat)
    (m : List (JVal × JVal)) (npid : Option JVal) (h1 h2 : Heap) (ca : Nat)
    (hcopy : deepcopyH fuel h0 dtAddr = some (h1, ca))
    (hrw : processCopyInPlace m npid h1 ca = .ok h2) :
    ∀ i, i < h0.size → h2.read i = h0.read i := by
  obtain ⟨hstep1, hca⟩ := (deepcopy_spec h0.size fuel).1 h0 dtAddr h1 ca
    (Nat.le_refl _) (lowerClosed_size h0) hcopy
  have hstep2 := processCopyInPlace_spec h0.size m npid h1 ca h2
    (le_trans (Nat.le_refl _) hstep1.2.1) hstep1.2.2 hca hrw
  intro i hi
  exact (hstep2.1 i hi).trans (hstep1.1 i hi)

def c9WitnessHeap : Heap :=
  ⟨[.leaf (.str "f1"), .hdict [("templateId", 0)], .hlist [1],
    .hdict [("generalTemplates", 2)]]⟩

def c9WitnessH1 : Heap :=
  ⟨[.leaf (.str "f1"), .hdict [("templateId", 0)], .hlist [1],
    .hdict [("generalTemplates", 2)], .leaf (.str "f1"), .hdict [("templateId", 4)],
    .hlist [5], .hdict [("generalTemplates", 6)]]⟩

def c9WitnessOut : Heap :=
  ⟨[.leaf (.str "f1"), .hdict [("templateId", 0)], .hlist [1],
    .hdict [("generalTemplates", 2)], .leaf (.str "f1"), .hdict [("templateId", 8)],
    .hlist [5], .hdict [("generalTemplates", 6), ("policyId", 9)],
    .leaf (.str "srv-0"), .leaf (.str "pol-1")]⟩

def c9WitnessMap : List (JVal × JVal) := [(.str "f1", .str "srv-0")]

theorem c9_no_input_mutation_witness :
    (deepcopyH 10 c9WitnessHeap 3 = some (c9WitnessH1, 7) ∧
      processCopyInPlace c9WitnessMap (some (.str "pol-1")) c9WitnessH1 7 =
        .ok c9WitnessOut ∧ 3 < c9WitnessHeap.size) ∧
    c9WitnessOut.read 3 = c9WitnessHeap.read 3 :=
  ⟨⟨rfl, rfl, by decide⟩,
    c9_no_input_mutation 10 c9WitnessHeap 3 c9WitnessMap (some (.str "pol-1"))
      c9WitnessH1 c9WitnessOut 7 rfl rfl 3 (by decide)⟩
